import Mathlib

/-!
# terraform-provider-sonarr: data-source lookups, import-by-ID and model conversions

A shallow embedding of the provider code in `internal/provider`:

* `findImportListExclusion` (import_list_exclusion_data_source.go),
* `ImportList.find` (import_list_data_source.go),
* `ImportState` of `root_folder` and `notification_mailgun`,
* `toNotification` / `fromNotification` / `write` / `read` of `NotificationMailgun`,
* `Create` / `Read` / `Update` / `Delete` of `root_folder` and `notification_mailgun`,
  with `RootFolder.write` and `Path.write`,
* `Read` of the data sources `import_list_exclusion` and `import_list`.

Go values are embedded as follows.  Machine integers are `Int` with explicit wrap-around
at conversions; a pointer or a nullable field is an `Option`; a function returning
`(value, error)` returns a pair whose second component is `none` for a nil error; a function
that mutates `resp` or `diags` returns the new value.  `tflog` calls only log and are dropped.
A handler returns the response together with the remote calls it made, or `none` where the Go
code dereferences a nil model (a null plan, state or configuration) or hands the framework a
model that it cannot store.
The development fixes a 64-bit target, where Go's `int` has 64 bits.
-/

set_option linter.dupNamespace false

namespace Sonarr

/-! ## Machine integers and strconv -/

/-- Number of bits of Go's `int` on the target (`strconv.IntSize`). -/
def intSize : Nat := 64

/-- Go conversion of an integer to a signed integer type of `bits` bits: the value is
reduced modulo `2 ^ bits` into `[-2 ^ (bits - 1), 2 ^ (bits - 1))`. -/
def wrapSigned (bits : Nat) (x : Int) : Int :=
  (x + 2 ^ (bits - 1)) % 2 ^ bits - 2 ^ (bits - 1)

/-- Go conversion `int32(x)`. -/
def toInt32 (x : Int) : Int := wrapSigned 32 x

/-- Go conversion `int(x)`. -/
def toInt (x : Int) : Int := wrapSigned intSize x

/-- Range of a Go `int32`. -/
def InInt32 (x : Int) : Prop := -2147483648 ≤ x ∧ x < 2147483648

/-- Range of a Go `int64`. -/
def InInt64 (x : Int) : Prop := -9223372036854775808 ≤ x ∧ x < 9223372036854775808

instance (x : Int) : Decidable (InInt32 x) := by unfold InInt32; infer_instance

instance (x : Int) : Decidable (InInt64 x) := by unfold InInt64; infer_instance

/-- Go `strconv.Itoa`: the decimal rendering of an integer, with a leading `-` when negative. -/
def Itoa (i : Int) : String :=
  match i with
  | Int.ofNat n => Nat.repr n
  | Int.negSucc n => "-" ++ Nat.repr (n + 1)

/-! ## Not-found errors (package helpers) -/

/-- Modelled from the spec: the value returned by `helpers.ErrDataNotFoundError`, which is
not among the sources at hand; the spec describes it as a typed not-found error identifying
the resource kind, the field name and the searched value. -/
structure DataNotFoundError where
  kind : String
  field : String
  search : String
  deriving DecidableEq, Repr

/-- Modelled from the spec: `helpers.ErrDataNotFoundError(kind, field, search)`, absent from
the sources at hand, builds the not-found error for that kind, field and searched value. -/
def ErrDataNotFoundError (kind field search : String) : DataNotFoundError :=
  { kind := kind, field := field, search := search }

/-! ## import_list_exclusion data source -/

def importListExclusionDataSourceName : String := "import_list_exclusion"

/-- The API record `sonarr.ImportListExclusionResource` of the generated client: every field
is optional on the wire. -/
structure ImportListExclusionResource where
  Id : Option Int
  TvdbId : Option Int
  Title : Option String
  deriving DecidableEq, Repr

/-- Generated getter `GetTvdbId`: the field value if set, zero otherwise (also on a nil
receiver). -/
def ImportListExclusionResource.GetTvdbId : Option ImportListExclusionResource → Int
  | none => 0
  | some o => o.TvdbId.getD 0

/-- The elements of a collection are well formed when their TVDB IDs are `int32` values, as
the field type of the API record requires. -/
def WellFormedExclusions (c : List (Option ImportListExclusionResource)) : Prop :=
  ∀ t ∈ c, InInt32 (ImportListExclusionResource.GetTvdbId t)

instance (c : List (Option ImportListExclusionResource)) : Decidable (WellFormedExclusions c) := by
  unfold WellFormedExclusions; infer_instance

/-- Embedding of `findImportListExclusion`: scan the collection in order and return the first element
whose TVDB ID equals `int32(tvID)`; otherwise return nil and the not-found error. -/
def findImportListExclusion (tvID : Int) :
    List (Option ImportListExclusionResource) →
      Option ImportListExclusionResource × Option DataNotFoundError
  | [] =>
    (none, some (ErrDataNotFoundError importListExclusionDataSourceName "tvdb_id"
      (Itoa (toInt tvID))))
  | t :: rest =>
    if ImportListExclusionResource.GetTvdbId t = toInt32 tvID then (t, none)
    else findImportListExclusion tvID rest

/-! ## Diagnostics of the plugin framework -/

inductive Severity where
  | Error
  | Warning
  deriving DecidableEq, Repr

/-- One diagnostic of the plugin framework (`diag.Diagnostic`). -/
structure Diagnostic where
  severity : Severity
  summary : String
  detail : String
  deriving DecidableEq, Repr

/-- The collection `diag.Diagnostics`, in the order in which diagnostics were added. -/
abbrev Diagnostics : Type := List Diagnostic

/-- Framework constructor `diag.NewErrorDiagnostic`. -/
def NewErrorDiagnostic (summary detail : String) : Diagnostic :=
  { severity := Severity.Error, summary := summary, detail := detail }

/-- Framework method `Diagnostics.Append`: adds the given diagnostics in order, skipping any
that the collection already contains. -/
def Diagnostics.Append (diags : Diagnostics) : List Diagnostic → Diagnostics
  | [] => diags
  | d :: rest =>
    if d ∈ diags then Diagnostics.Append diags rest
    else Diagnostics.Append (diags ++ [d]) rest

/-- Framework method `Diagnostics.AddError`: `Append` of one new error diagnostic. -/
def Diagnostics.AddError (diags : Diagnostics) (summary detail : String) : Diagnostics :=
  Diagnostics.Append diags [NewErrorDiagnostic summary detail]

/-- Framework method `Diagnostics.HasError`. -/
def Diagnostics.HasError (diags : Diagnostics) : Bool :=
  diags.any (fun d => decide (d.severity = Severity.Error))

/-- Modelled from the spec: the constant `helpers.DataSourceError`, declared outside the
sources at hand, is the title of a diagnostic reporting a data-source (not-found) error. -/
def helpers.DataSourceError : String := "Data Source Error"

/-- Modelled from the spec: the constant `tools.UnexpectedImportIdentifier`, declared outside
the sources at hand, is the title of the diagnostic for an unexpected import identifier. -/
def tools.UnexpectedImportIdentifier : String := "Unexpected Import Identifier"

/-- Modelled from the spec: the message of the not-found error, naming the resource kind, the
field and the searched value (the `Error` method of the value `helpers.ErrDataNotFoundError`
builds, absent from the sources at hand). -/
def DataNotFoundError.Error (e : DataNotFoundError) : String :=
  "data source not found: no " ++ e.kind ++ " with " ++ e.field ++ " '" ++ e.search ++ "'"

/-- Modelled from the spec: `helpers.ParseNotFoundError(kind, field, search)`, absent from the
sources at hand, renders the not-found error for that kind, field and searched value as the
detail of a diagnostic. -/
def helpers.ParseNotFoundError (kind field search : String) : String :=
  DataNotFoundError.Error (ErrDataNotFoundError kind field search)

/-! ## Attribute values of the plugin framework -/

/-- A framework attribute value (`types.Bool`, `types.Int64`, `types.String`): null,
unknown, or a known value.  The Go zero value of these types is null. -/
inductive Attr (α : Type) where
  | Null
  | Unknown
  | Value (v : α)
  deriving DecidableEq, Repr

/-- The framework type `types.Bool`. -/
abbrev TfBool : Type := Attr Bool

/-- The framework type `types.Int64`. -/
abbrev TfInt64 : Type := Attr Int

/-- The framework type `types.String`. -/
abbrev TfString : Type := Attr String

/-- The framework type `types.Set` with elements of one type; the elements are attribute
values themselves.  `Null`, `Unknown` and `Value` are the sets the framework builds, which
carry their element type.  `Zero` is the Go zero value `types.Set{}`, what a field of a
struct literal holds when it is left out: a null set without element type, which the
framework can neither convert nor store. -/
inductive TfSet (α : Type) where
  | Zero
  | Null
  | Unknown
  | Value (elements : List (Attr α))
  deriving DecidableEq, Repr

def types.BoolValue (b : Bool) : TfBool := Attr.Value b

def types.Int64Value (i : Int) : TfInt64 := Attr.Value i

def types.StringValue (s : String) : TfString := Attr.Value s

/-- Accessor `ValueBool`: the known value, `false` when null or unknown. -/
def Attr.ValueBool : TfBool → Bool
  | Attr.Value b => b
  | _ => false

/-- Accessor `ValueInt64`: the known value, `0` when null or unknown. -/
def Attr.ValueInt64 : TfInt64 → Int
  | Attr.Value i => i
  | _ => 0

/-- Accessor `ValueString`: the known value, the empty string when null or unknown. -/
def Attr.ValueString : TfString → String
  | Attr.Value s => s
  | _ => ""

/-- Framework `types.SetValueFrom(ctx, types.Int64Type, elements)` for a Go `[]int`
(`none` is the nil slice): a nil slice gives the null set; otherwise the set of the known
elements, except that the set type rejects duplicate elements, and on that error the result
is the unknown set.  The diagnostics it also returns are not modelled: the callers embedded
here discard them. -/
def types.SetValueFrom (elements : Option (List Int)) : TfSet Int :=
  match elements with
  | none => TfSet.Null
  | some xs => if xs.Nodup then TfSet.Value (xs.map Attr.Value) else TfSet.Unknown

/-- Conversion of the elements of a known set to Go integers: fails on a null or unknown
element. -/
def tfsdk.elementsAs : List (Attr Int) → Option (List Int)
  | [] => some []
  | Attr.Value v :: rest => (tfsdk.elementsAs rest).map (fun vs => v :: vs)
  | _ :: _ => none

/-- Framework `tfsdk.ValueAs(ctx, set, &target)` for a target `[]int`: `none` when the
conversion fails (unknown set, null or unknown element, zero-value set) and the target is
left untouched; a null set gives the nil slice. -/
def tfsdk.ValueAs : TfSet Int → Option (Option (List Int))
  | TfSet.Zero => none
  | TfSet.Null => some none
  | TfSet.Unknown => none
  | TfSet.Value elems => (tfsdk.elementsAs elems).map some

/-! ## import_list data source -/

def importListDataSourceName : String := "import_list"

/-- The API record `sonarr.ImportListResource` of the generated client, with the fields the
data source exposes; every field is optional on the wire. -/
structure ImportListResource where
  Id : Option Int
  Name : Option String
  Implementation : Option String
  ConfigContract : Option String
  EnableAutomaticAdd : Option Bool
  SeasonFolder : Option Bool
  QualityProfileId : Option Int
  ShouldMonitor : Option String
  RootFolderPath : Option String
  SeriesType : Option String
  Tags : Option (List Int)
  deriving DecidableEq, Repr

/-- Generated getter `GetName`: the name if set, the empty string otherwise. -/
def ImportListResource.GetName (o : ImportListResource) : String := o.Name.getD ""

/-- Modelled from the spec: the model struct `ImportList` is declared outside the sources at
hand; as the flat record mirroring the entity it has one field per attribute of the schema
that the data source declares. -/
structure ImportList where
  EnableAutomaticAdd : TfBool
  SeasonFolder : TfBool
  QualityProfileID : TfInt64
  ShouldMonitor : TfString
  RootFolderPath : TfString
  Implementation : TfString
  ConfigContract : TfString
  SeriesType : TfString
  Name : TfString
  Tags : TfSet Int
  ID : TfInt64
  Limit : TfInt64
  TraktListType : TfInt64
  ListType : TfInt64
  AccessToken : TfString
  RefreshToken : TfString
  APIKey : TfString
  AuthUser : TfString
  Username : TfString
  Rating : TfString
  BaseURL : TfString
  URL : TfString
  Expires : TfString
  Listname : TfString
  ListID : TfString
  Genres : TfString
  Years : TfString
  TraktAdditionalParameters : TfString
  LanguageProfileIds : TfSet Int
  QualityProfileIds : TfSet Int
  TagIds : TfSet Int
  deriving DecidableEq, Repr

/-- The converter `ImportList.write(ctx, list, diags)` is declared outside the sources at
hand and is taken as a parameter: from the model, the API record and the diagnostics it
gives the new model and diagnostics. -/
abbrev ImportListWriter : Type :=
  ImportList → ImportListResource → Diagnostics → ImportList × Diagnostics

/-- Embedding of `ImportList.find`: scan the collection in order; at the first list whose name equals
`name`, write the model from it and return; when the scan ends, add the not-found error. -/
def ImportList.find (write : ImportListWriter) (i : ImportList) (name : String) :
    List ImportListResource → Diagnostics → ImportList × Diagnostics
  | [], diags =>
    (i, Diagnostics.AddError diags helpers.DataSourceError
      (helpers.ParseNotFoundError importListDataSourceName "name" name))
  | list :: rest, diags =>
    if list.GetName = name then write i list diags
    else ImportList.find write i name rest diags

/-- A collection in which two records carry TVDB ID 9. -/
def sampleExclusions : List (Option ImportListExclusionResource) :=
  [some { Id := some 1, TvdbId := some 7, Title := none },
   some { Id := some 2, TvdbId := some 9, Title := some "first" },
   some { Id := some 3, TvdbId := some 9, Title := some "second" }]

/-- The model whose attributes are all null, as the framework builds it from an empty
configuration. -/
def ImportList.allNull : ImportList :=
  { EnableAutomaticAdd := Attr.Null, SeasonFolder := Attr.Null, QualityProfileID := Attr.Null,
    ShouldMonitor := Attr.Null, RootFolderPath := Attr.Null, Implementation := Attr.Null,
    ConfigContract := Attr.Null, SeriesType := Attr.Null, Name := Attr.Null, Tags := TfSet.Null,
    ID := Attr.Null, Limit := Attr.Null, TraktListType := Attr.Null, ListType := Attr.Null,
    AccessToken := Attr.Null, RefreshToken := Attr.Null, APIKey := Attr.Null,
    AuthUser := Attr.Null, Username := Attr.Null, Rating := Attr.Null, BaseURL := Attr.Null,
    URL := Attr.Null, Expires := Attr.Null, Listname := Attr.Null, ListID := Attr.Null,
    Genres := Attr.Null, Years := Attr.Null, TraktAdditionalParameters := Attr.Null,
    LanguageProfileIds := TfSet.Null, QualityProfileIds := TfSet.Null, TagIds := TfSet.Null }

/-- An API import list with the given ID and name and nothing else set. -/
def ImportListResource.named (id : Int) (name : String) : ImportListResource :=
  { Id := some id, Name := some name, Implementation := none, ConfigContract := none,
    EnableAutomaticAdd := none, SeasonFolder := none, QualityProfileId := none,
    ShouldMonitor := none, RootFolderPath := none, SeriesType := none, Tags := none }

/-- A collection in which two lists are named `tv`. -/
def sampleImportLists : List ImportListResource :=
  [ImportListResource.named 1 "anime", ImportListResource.named 2 "tv",
   ImportListResource.named 3 "tv"]

/-- A model writer used to run `ImportList.find` on examples: it copies the ID and the name
and adds no diagnostic. -/
def sampleWriter : ImportListWriter :=
  fun i list diags =>
    ({ i with ID := Attr.Value (list.Id.getD 0), Name := Attr.Value list.GetName }, diags)

/-! ## strconv.Atoi and the `%q` verb -/

/-- The two causes of a `strconv.NumError`. -/
inductive NumError where
  | ErrSyntax
  | ErrRange
  deriving DecidableEq, Repr

/-- An ASCII decimal digit. -/
def isDigit (c : Char) : Bool := decide (48 ≤ c.toNat) && decide (c.toNat ≤ 57)

/-- Value of a decimal digit. -/
def digitVal (c : Char) : Nat := c.toNat - 48

/-- Digit loop of `strconv.ParseUint(s, 10, 64)`: a character that is not a decimal digit
is a syntax error, a value above `2 ^ 64 - 1` is a range error. -/
def parseUintDigits : List Char → Nat → Except NumError Nat
  | [], n => Except.ok n
  | c :: cs, n =>
    if isDigit c then
      if n * 10 + digitVal c < 18446744073709551616 then parseUintDigits cs (n * 10 + digitVal c)
      else Except.error NumError.ErrRange
    else Except.error NumError.ErrSyntax

/-- Go `strconv.ParseUint(s, 10, 64)`; the empty string is a syntax error. -/
def ParseUint (s : List Char) : Except NumError Nat :=
  match s with
  | [] => Except.error NumError.ErrSyntax
  | _ :: _ => parseUintDigits s 0

/-- Go `strconv.ParseInt(s, 10, 0)` on a 64-bit target: an optional sign, then `ParseUint`,
then the range check of a signed 64-bit integer. -/
def ParseInt (s : List Char) : Except NumError Int :=
  match s with
  | [] => Except.error NumError.ErrSyntax
  | c :: cs =>
    let neg : Bool := decide (c = '-')
    let digits : List Char := if c = '+' ∨ c = '-' then cs else c :: cs
    match ParseUint digits with
    | Except.error e => Except.error e
    | Except.ok un =>
      if !neg && decide (9223372036854775808 ≤ un) then Except.error NumError.ErrRange
      else if neg && decide (9223372036854775808 < un) then Except.error NumError.ErrRange
      else Except.ok (if neg then -(un : Int) else (un : Int))

/-- Go `strconv.Atoi`: `ParseInt(s, 10, 0)` converted to `int` (its fast path for short
strings computes the same result).  Only the error or the value is kept: the callers
embedded here ignore the value returned along with an error. -/
def Atoi (s : String) : Except NumError Int :=
  match ParseInt s.data with
  | Except.error e => Except.error e
  | Except.ok i64 => Except.ok (toInt i64)

/-- Lower-case hexadecimal digit. -/
def hexDigit (n : Nat) : Char :=
  if n < 10 then Char.ofNat (48 + n) else Char.ofNat (87 + n)

/-- The low `width` hexadecimal digits of `n`, most significant first. -/
def hexFixed : Nat → Nat → List Char
  | 0, _ => []
  | width + 1, n => hexFixed width (n / 16) ++ [hexDigit (n % 16)]

/-- Go `strconv.IsPrint`: decided by ranges up to U+00FF, by the Unicode tables `table`
above. -/
def IsPrint (table : Char → Bool) (r : Char) : Bool :=
  if r.toNat ≤ 255 then
    if 32 ≤ r.toNat ∧ r.toNat ≤ 126 then true
    else if 161 ≤ r.toNat ∧ r.toNat ≤ 255 then decide (r.toNat ≠ 173)
    else false
  else table r

/-- Go `appendEscapedRune` for the double quote: how `%q` renders one character. -/
def appendEscapedRune (table : Char → Bool) (r : Char) : List Char :=
  if r.toNat = 34 ∨ r.toNat = 92 then [Char.ofNat 92, r]
  else if IsPrint table r then [r]
  else if r.toNat = 7 then [Char.ofNat 92, 'a']
  else if r.toNat = 8 then [Char.ofNat 92, 'b']
  else if r.toNat = 12 then [Char.ofNat 92, 'f']
  else if r.toNat = 10 then [Char.ofNat 92, 'n']
  else if r.toNat = 13 then [Char.ofNat 92, 'r']
  else if r.toNat = 9 then [Char.ofNat 92, 't']
  else if r.toNat = 11 then [Char.ofNat 92, 'v']
  else if r.toNat < 32 ∨ r.toNat = 127 then [Char.ofNat 92, 'x'] ++ hexFixed 2 r.toNat
  else if r.toNat < 65536 then [Char.ofNat 92, 'u'] ++ hexFixed 4 r.toNat
  else [Char.ofNat 92, 'U'] ++ hexFixed 8 r.toNat

/-- Go `strconv.Quote`, the rendering of the `%q` verb of `fmt.Sprintf`: the string in
double quotes, each character escaped as Go source would.  The Unicode tables behind
`unicode.IsPrint` are the parameter `table`. -/
def Quote (table : Char → Bool) (s : String) : String :=
  String.mk ([Char.ofNat 34] ++ (s.data.map (appendEscapedRune table)).flatten ++ [Char.ofNat 34])

/-! ## State of a resource -/

/-- An attribute path at the root of a schema, as built by `path.Root`. -/
structure AttributePath where
  name : String
  deriving DecidableEq, Repr

def path.Root (name : String) : AttributePath := { name := name }

/-- What the framework needs of a model struct to address the state by attribute: the
object whose attributes are all null, and how to set the `Int64` attribute of a given name
(`none` when the schema has no `Int64` attribute of that name). -/
class Model (M : Type) where
  null : M
  setInt64 : String → Int → M → Option M

/-- The state `tfsdk.State` of a resource whose model struct is `M`; `Raw = none` is the
null state, the state of a resource that is absent or was removed. -/
structure State (M : Type) where
  Raw : Option M

/-- Framework `State.SetAttribute(ctx, path, val)` for a Go `int` value: the attribute at
`path` becomes the known `Int64` value and every other attribute is kept (null when the
state was null); a path that is no `Int64` attribute of the schema leaves the state as it
was and reports an error. -/
def State.SetAttribute {M : Type} [Model M] (s : State M) (p : AttributePath) (val : Int) :
    State M × Diagnostics :=
  match Model.setInt64 p.name val (s.Raw.getD Model.null) with
  | some m => ({ Raw := some m }, [])
  | none =>
    (s, [NewErrorDiagnostic "State Write Error" ("no Int64 attribute at path " ++ p.name)])

/-- Framework `resource.ImportStateRequest`. -/
structure ImportStateRequest where
  ID : String

/-- Framework `resource.ImportStateResponse`. -/
structure ImportStateResponse (M : Type) where
  Diagnostics : Diagnostics
  State : State M

/-! ## root_folder resource -/

def rootFolderResourceName : String := "root_folder"

/-- Path part of RootFolder. -/
structure Path where
  Name : TfString
  Path : TfString
  deriving DecidableEq, Repr

/-- RootFolder describes the root folder data model. -/
structure RootFolder where
  UnmappedFolders : TfSet Path
  Path : TfString
  ID : TfInt64
  Accessible : TfBool
  deriving DecidableEq, Repr

/-- Addressing of `RootFolder` by its `tfsdk` tags: `id` is its only `Int64` attribute. -/
instance : Model RootFolder where
  null := { UnmappedFolders := TfSet.Null, Path := Attr.Null, ID := Attr.Null,
            Accessible := Attr.Null }
  setInt64 := fun name v m => if name = "id" then some { m with ID := Attr.Value v } else none

/-- Embedding of `RootFolderResource.ImportState`. -/
def RootFolderResource.ImportState (table : Char → Bool) (req : ImportStateRequest)
    (resp : ImportStateResponse RootFolder) : ImportStateResponse RootFolder :=
  match Atoi req.ID with
  | Except.error _ =>
    { resp with
      Diagnostics := Diagnostics.AddError resp.Diagnostics tools.UnexpectedImportIdentifier
        ("Expected import identifier with format: ID. Got: " ++ Quote table req.ID) }
  | Except.ok id =>
    let r := State.SetAttribute resp.State (path.Root "id") id
    { State := r.1, Diagnostics := Diagnostics.Append resp.Diagnostics r.2 }

/-! ## notification_mailgun resource -/

def notificationMailgunResourceName : String := "notification_mailgun"

def notificationMailgunImplementation : String := "Mailgun"

def notificationMailgunConfigContrat : String := "MailgunSettings"

/-- NotificationMailgun describes the notification data model. -/
structure NotificationMailgun where
  Tags : TfSet Int
  Recipients : TfSet String
  From : TfString
  SenderDomain : TfString
  Name : TfString
  APIKey : TfString
  ID : TfInt64
  UseEuEndpoint : TfBool
  OnGrab : TfBool
  OnEpisodeFileDeleteForUpgrade : TfBool
  OnEpisodeFileDelete : TfBool
  IncludeHealthWarnings : TfBool
  OnApplicationUpdate : TfBool
  OnHealthIssue : TfBool
  OnSeriesDelete : TfBool
  OnUpgrade : TfBool
  OnDownload : TfBool
  deriving DecidableEq, Repr

/-- Modelled from the spec: the generic `Notification` record shared by the notification
variants is declared outside the sources at hand; each variant is a view over its field
set, and the fields listed are those of the Mailgun view (the fields of other variants,
which the Mailgun code never reads or writes, are left out). -/
structure Notification where
  Tags : TfSet Int
  Recipients : TfSet String
  SenderDomain : TfString
  APIKey : TfString
  UseEuEndpoint : TfBool
  Name : TfString
  From : TfString
  ID : TfInt64
  OnGrab : TfBool
  OnEpisodeFileDeleteForUpgrade : TfBool
  OnEpisodeFileDelete : TfBool
  IncludeHealthWarnings : TfBool
  OnApplicationUpdate : TfBool
  OnHealthIssue : TfBool
  OnSeriesDelete : TfBool
  OnUpgrade : TfBool
  OnDownload : TfBool
  deriving DecidableEq, Repr

/-- Value of a settings field of the API (`interface{}` decoded from JSON). -/
inductive FieldValue where
  | Nil
  | Str (s : String)
  | Num (n : Int)
  | Flag (b : Bool)
  | Strs (l : List String)
  | Nums (l : List Int)
  deriving DecidableEq, Repr

/-- The record `starr.FieldOutput`: a named settings field returned by the API. -/
structure FieldOutput where
  Name : String
  Value : FieldValue
  deriving DecidableEq, Repr

/-- The record `starr.FieldInput`: a named settings field sent to the API. -/
structure FieldInput where
  Name : String
  Value : FieldValue
  deriving DecidableEq, Repr

/-- The API record `sonarr.NotificationOutput` of the client library (`Tags = none` is the
nil slice). -/
structure NotificationOutput where
  OnGrab : Bool
  OnDownload : Bool
  OnUpgrade : Bool
  OnRename : Bool
  OnSeriesDelete : Bool
  OnEpisodeFileDelete : Bool
  OnEpisodeFileDeleteForUpgrade : Bool
  OnHealthIssue : Bool
  OnApplicationUpdate : Bool
  IncludeHealthWarnings : Bool
  ID : Int
  Name : String
  ImplementationName : String
  Implementation : String
  ConfigContract : String
  Tags : Option (List Int)
  Fields : List FieldOutput
  deriving DecidableEq, Repr

/-- The API record `sonarr.NotificationInput` of the client library. -/
structure NotificationInput where
  OnGrab : Bool
  OnDownload : Bool
  OnUpgrade : Bool
  OnRename : Bool
  OnSeriesDelete : Bool
  OnEpisodeFileDelete : Bool
  OnEpisodeFileDeleteForUpgrade : Bool
  OnHealthIssue : Bool
  OnApplicationUpdate : Bool
  IncludeHealthWarnings : Bool
  ID : Int
  Name : String
  Implementation : String
  ConfigContract : String
  Tags : Option (List Int)
  Fields : List FieldInput
  deriving DecidableEq, Repr

/-- The two converters of the generic `Notification` between its settings attributes and the
settings fields of the API, `writeFields` and `readFields`; they are declared outside the
sources at hand and are taken as parameters. -/
structure NotificationFields where
  writeFields : Notification → List FieldOutput → Notification
  readFields : Notification → List FieldInput

/-- Frame condition on `writeFields`: it fills settings attributes only, so the event flags,
the ID, the name and the tags of the generic notification are as before. -/
def NotificationFields.WritesSettingsOnly (F : NotificationFields) : Prop :=
  ∀ (g : Notification) (fs : List FieldOutput),
    (F.writeFields g fs).OnGrab = g.OnGrab ∧
    (F.writeFields g fs).OnDownload = g.OnDownload ∧
    (F.writeFields g fs).OnUpgrade = g.OnUpgrade ∧
    (F.writeFields g fs).OnSeriesDelete = g.OnSeriesDelete ∧
    (F.writeFields g fs).OnEpisodeFileDelete = g.OnEpisodeFileDelete ∧
    (F.writeFields g fs).OnEpisodeFileDeleteForUpgrade = g.OnEpisodeFileDeleteForUpgrade ∧
    (F.writeFields g fs).OnHealthIssue = g.OnHealthIssue ∧
    (F.writeFields g fs).OnApplicationUpdate = g.OnApplicationUpdate ∧
    (F.writeFields g fs).IncludeHealthWarnings = g.IncludeHealthWarnings ∧
    (F.writeFields g fs).ID = g.ID ∧
    (F.writeFields g fs).Name = g.Name ∧
    (F.writeFields g fs).Tags = g.Tags

/-- Embedding of `NotificationMailgun.toNotification`. -/
def NotificationMailgun.toNotification (n : NotificationMailgun) : Notification :=
  { Tags := n.Tags,
    Recipients := n.Recipients,
    SenderDomain := n.SenderDomain,
    APIKey := n.APIKey,
    UseEuEndpoint := n.UseEuEndpoint,
    Name := n.Name,
    From := n.From,
    ID := n.ID,
    OnGrab := n.OnGrab,
    OnEpisodeFileDeleteForUpgrade := n.OnEpisodeFileDeleteForUpgrade,
    OnEpisodeFileDelete := n.OnEpisodeFileDelete,
    IncludeHealthWarnings := n.IncludeHealthWarnings,
    OnApplicationUpdate := n.OnApplicationUpdate,
    OnHealthIssue := n.OnHealthIssue,
    OnSeriesDelete := n.OnSeriesDelete,
    OnUpgrade := n.OnUpgrade,
    OnDownload := n.OnDownload }

/-- Embedding of `NotificationMailgun.fromNotification`: the receiver after the assignments. -/
def NotificationMailgun.fromNotification (n : NotificationMailgun)
    (notification : Notification) : NotificationMailgun :=
  { n with
    Tags := notification.Tags,
    Recipients := notification.Recipients,
    SenderDomain := notification.SenderDomain,
    APIKey := notification.APIKey,
    UseEuEndpoint := notification.UseEuEndpoint,
    Name := notification.Name,
    From := notification.From,
    ID := notification.ID,
    OnGrab := notification.OnGrab,
    OnEpisodeFileDeleteForUpgrade := notification.OnEpisodeFileDeleteForUpgrade,
    OnEpisodeFileDelete := notification.OnEpisodeFileDelete,
    IncludeHealthWarnings := notification.IncludeHealthWarnings,
    OnApplicationUpdate := notification.OnApplicationUpdate,
    OnHealthIssue := notification.OnHealthIssue,
    OnSeriesDelete := notification.OnSeriesDelete,
    OnUpgrade := notification.OnUpgrade,
    OnDownload := notification.OnDownload }

/-- Addressing of `NotificationMailgun` by its `tfsdk` tags: `id` is its only `Int64`
attribute. -/
instance : Model NotificationMailgun where
  null := { Tags := TfSet.Null, Recipients := TfSet.Null, From := Attr.Null,
            SenderDomain := Attr.Null, Name := Attr.Null, APIKey := Attr.Null,
            ID := Attr.Null, UseEuEndpoint := Attr.Null, OnGrab := Attr.Null,
            OnEpisodeFileDeleteForUpgrade := Attr.Null, OnEpisodeFileDelete := Attr.Null,
            IncludeHealthWarnings := Attr.Null, OnApplicationUpdate := Attr.Null,
            OnHealthIssue := Attr.Null, OnSeriesDelete := Attr.Null, OnUpgrade := Attr.Null,
            OnDownload := Attr.Null }
  setInt64 := fun name v m => if name = "id" then some { m with ID := Attr.Value v } else none

/-- Embedding of `NotificationMailgunResource.ImportState`. -/
def NotificationMailgunResource.ImportState (table : Char → Bool) (req : ImportStateRequest)
    (resp : ImportStateResponse NotificationMailgun) :
    ImportStateResponse NotificationMailgun :=
  match Atoi req.ID with
  | Except.error _ =>
    { resp with
      Diagnostics := Diagnostics.AddError resp.Diagnostics tools.UnexpectedImportIdentifier
        ("Expected import identifier with format: ID. Got: " ++ Quote table req.ID) }
  | Except.ok id =>
    let r := State.SetAttribute resp.State (path.Root "id") id
    { State := r.1, Diagnostics := Diagnostics.Append resp.Diagnostics r.2 }

/-- Embedding of `NotificationMailgun.write`: the generic notification is built from the API record
(attributes not listed start as the Go zero value: null for a scalar, the zero-value set for
`Tags` and `Recipients`), the tags are converted to a set, the
settings attributes are filled by `writeFields`, and the result is copied into the model. -/
def NotificationMailgun.write (F : NotificationFields) (n : NotificationMailgun)
    (notification : NotificationOutput) : NotificationMailgun :=
  let genericNotification : Notification :=
    { OnGrab := types.BoolValue notification.OnGrab,
      OnDownload := types.BoolValue notification.OnDownload,
      OnUpgrade := types.BoolValue notification.OnUpgrade,
      OnSeriesDelete := types.BoolValue notification.OnSeriesDelete,
      OnEpisodeFileDelete := types.BoolValue notification.OnEpisodeFileDelete,
      OnEpisodeFileDeleteForUpgrade := types.BoolValue notification.OnEpisodeFileDeleteForUpgrade,
      OnHealthIssue := types.BoolValue notification.OnHealthIssue,
      OnApplicationUpdate := types.BoolValue notification.OnApplicationUpdate,
      IncludeHealthWarnings := types.BoolValue notification.IncludeHealthWarnings,
      ID := types.Int64Value notification.ID,
      Name := types.StringValue notification.Name,
      Tags := TfSet.Zero, Recipients := TfSet.Zero, SenderDomain := Attr.Null,
      APIKey := Attr.Null, UseEuEndpoint := Attr.Null, From := Attr.Null }
  let genericNotification : Notification :=
    { genericNotification with Tags := types.SetValueFrom notification.Tags }
  let genericNotification : Notification :=
    F.writeFields genericNotification notification.Fields
  n.fromNotification genericNotification

/-- Embedding of `NotificationMailgun.read`: `tags` stays the nil slice when the conversion of the set
fails; `OnRename` is not set and keeps its zero value. -/
def NotificationMailgun.read (F : NotificationFields) (n : NotificationMailgun) :
    NotificationInput :=
  let tags : Option (List Int) := (tfsdk.ValueAs n.Tags).getD none
  { OnGrab := n.OnGrab.ValueBool,
    OnDownload := n.OnDownload.ValueBool,
    OnUpgrade := n.OnUpgrade.ValueBool,
    OnRename := false,
    OnSeriesDelete := n.OnSeriesDelete.ValueBool,
    OnEpisodeFileDelete := n.OnEpisodeFileDelete.ValueBool,
    OnEpisodeFileDeleteForUpgrade := n.OnEpisodeFileDeleteForUpgrade.ValueBool,
    OnHealthIssue := n.OnHealthIssue.ValueBool,
    OnApplicationUpdate := n.OnApplicationUpdate.ValueBool,
    IncludeHealthWarnings := n.IncludeHealthWarnings.ValueBool,
    ConfigContract := notificationMailgunConfigContrat,
    Implementation := notificationMailgunImplementation,
    ID := n.ID.ValueInt64,
    Name := n.Name.ValueString,
    Tags := tags,
    Fields := F.readFields n.toNotification }

/-! ## Vocabulary of the statements -/

/-- A non-empty list of decimal digits. -/
def IsDecimalDigits (cs : List Char) : Prop := cs ≠ [] ∧ ∀ c ∈ cs, isDigit c = true

/-- The number a list of decimal digits denotes. -/
def decimalValue (cs : List Char) : Nat := cs.foldl (fun acc c => acc * 10 + digitVal c) 0

/-- A numeric identifier: an optional single sign followed by one or more decimal digits. -/
def IsNumeric (s : String) : Prop :=
  match s.data with
  | [] => False
  | c :: cs => if c = '+' ∨ c = '-' then IsDecimalDigits cs else IsDecimalDigits (c :: cs)

instance (cs : List Char) : Decidable (IsDecimalDigits cs) := by
  unfold IsDecimalDigits; infer_instance

instance (s : String) : Decidable (IsNumeric s) := by
  unfold IsNumeric
  split
  · infer_instance
  · infer_instance

/-- A character that `%q` renders as itself: printable ASCII other than the double quote and
the backslash. -/
def IsPlainChar (c : Char) : Prop :=
  32 ≤ c.toNat ∧ c.toNat ≤ 126 ∧ c.toNat ≠ 34 ∧ c.toNat ≠ 92

instance (c : Char) : Decidable (IsPlainChar c) := by
  unfold IsPlainChar; infer_instance

/-- A stand-in for the Unicode tables behind `unicode.IsPrint`, used to run examples whose
characters are all below U+0100, where the tables are not consulted. -/
def sampleTable : Char → Bool := fun _ => false

/-- Converters used to run `write` and `read` on examples: `writeFields` fills the sender
address from the settings field `from`, `readFields` sends it back. -/
def sampleFields : NotificationFields :=
  { writeFields := fun g fs =>
      match fs.find? (fun f => f.Name == "from") with
      | some f =>
        match f.Value with
        | FieldValue.Str v => { g with From := Attr.Value v }
        | _ => g
      | none => g
    readFields := fun g => [{ Name := "from", Value := FieldValue.Str g.From.ValueString }] }

/-- An API notification used in examples. -/
def sampleNotification : NotificationOutput :=
  { OnGrab := true, OnDownload := false, OnUpgrade := true, OnRename := true,
    OnSeriesDelete := false, OnEpisodeFileDelete := true,
    OnEpisodeFileDeleteForUpgrade := false, OnHealthIssue := true,
    OnApplicationUpdate := false, IncludeHealthWarnings := true, ID := 12, Name := "mail",
    ImplementationName := "Mailgun", Implementation := "Other",
    ConfigContract := "OtherSettings", Tags := some [3, 1],
    Fields := [{ Name := "from", Value := FieldValue.Str "tv@example.org" }] }

/-! ## Requests, responses and the API client -/

/-- The zero-value test on a set. -/
def TfSet.IsZero {α : Type} : TfSet α → Bool
  | TfSet.Zero => true
  | _ => false

/-- What the framework needs of a model struct to store it as a whole: `storable` tells
that no set attribute of the model is the Go zero value. -/
class Storable (M : Type) where
  storable : M → Bool

instance : Storable RootFolder where
  storable := fun m => !m.UnmappedFolders.IsZero

instance : Storable NotificationMailgun where
  storable := fun m => !m.Tags.IsZero && !m.Recipients.IsZero

instance : Storable ImportList where
  storable := fun m =>
    !m.Tags.IsZero && !m.LanguageProfileIds.IsZero && !m.QualityProfileIds.IsZero &&
      !m.TagIds.IsZero

/-- The plan `tfsdk.Plan` of a resource whose model struct is `M`. -/
structure Plan (M : Type) where
  Raw : Option M

/-- The configuration `tfsdk.Config` of a data source whose model struct is `M`. -/
structure Config (M : Type) where
  Raw : Option M

/-- Framework `Plan.Get(ctx, &model)` for a target that is a pointer to the model struct: the
pointer is nil for a null plan. -/
def Plan.Get {M : Type} (p : Plan M) : Option M × Diagnostics := (p.Raw, [])

/-- Framework `Config.Get(ctx, &model)`, as `Plan.Get`. -/
def Config.Get {M : Type} (c : Config M) : Option M × Diagnostics := (c.Raw, [])

/-- Framework `State.Get(ctx, &model)`, as `Plan.Get`. -/
def State.Get {M : Type} (s : State M) : Option M × Diagnostics := (s.Raw, [])

/-- Framework `State.Set(ctx, &model)`: the state becomes the model and no diagnostic is
returned.  A model that holds a zero-value set cannot be converted: depending on its
release the framework panics there or returns a Value Conversion Error, and in both cases
the state is not written; `none` stands for that failure. -/
def State.Set {M : Type} [Storable M] (_s : State M) (m : M) :
    Option (State M × Diagnostics) :=
  if Storable.storable m then some ({ Raw := some m }, []) else none

/-- Framework `State.RemoveResource(ctx)`: the state becomes null. -/
def State.RemoveResource {M : Type} (_s : State M) : State M := { Raw := none }

structure CreateRequest (M : Type) where
  Plan : Plan M

structure CreateResponse (M : Type) where
  State : State M
  Diagnostics : Diagnostics

structure ReadRequest (M : Type) where
  State : State M

structure ReadResponse (M : Type) where
  State : State M
  Diagnostics : Diagnostics

structure UpdateRequest (M : Type) where
  Plan : Plan M
  State : State M

structure UpdateResponse (M : Type) where
  State : State M
  Diagnostics : Diagnostics

structure DeleteRequest (M : Type) where
  State : State M

structure DeleteResponse (M : Type) where
  State : State M
  Diagnostics : Diagnostics

/-- Framework `datasource.ReadRequest`. -/
structure DataSourceReadRequest (M : Type) where
  Config : Config M

/-- Framework `datasource.ReadResponse`. -/
structure DataSourceReadResponse (M : Type) where
  State : State M
  Diagnostics : Diagnostics

/-- The record `starr.Path` of the client library. -/
structure starr.Path where
  Name : String
  Path : String
  deriving DecidableEq, Repr

/-- The API record `sonarr.RootFolder` of the client library. -/
structure sonarr.RootFolder where
  Accessible : Bool
  ID : Int
  FreeSpace : Int
  Path : String
  UnmappedFolders : List starr.Path
  deriving DecidableEq, Repr

/-- The client `sonarr.Sonarr` that the resources call: one function per remote call, giving
the API object or the message of the error. -/
structure sonarr.Sonarr where
  AddNotificationContext : NotificationInput → Except String NotificationOutput
  GetNotificationContext : Int → Except String NotificationOutput
  UpdateNotificationContext : NotificationInput → Except String NotificationOutput
  DeleteNotificationContext : Int → Option String
  AddRootFolderContext : sonarr.RootFolder → Except String sonarr.RootFolder
  GetRootFolderContext : Int → Except String sonarr.RootFolder
  DeleteRootFolderContext : Int → Option String

/-- The generated client `sonarr.APIClient` that the data sources call. -/
structure sonarr.APIClient where
  ListImportListExclusion : Except String (List (Option ImportListExclusionResource))
  ListImportList : Except String (List ImportListResource)

/-- A remote call made by a handler, with its argument. -/
inductive ClientCall where
  | AddNotification (request : NotificationInput)
  | GetNotification (id : Int)
  | UpdateNotification (request : NotificationInput)
  | DeleteNotification (id : Int)
  | AddRootFolder (request : sonarr.RootFolder)
  | GetRootFolder (id : Int)
  | DeleteRootFolder (id : Int)
  | ListImportListExclusion
  | ListImportList
  deriving DecidableEq, Repr

/-- What a handler leaves behind: the response and the remote calls it made, in order. -/
structure Outcome (R : Type) where
  resp : R
  calls : List ClientCall

/-- Modelled from the spec: the constant `tools.ClientError`, declared outside the sources at
hand, is the title of the diagnostic reporting that a remote call failed. -/
def tools.ClientError : String := "Client Error"

/-- Modelled from the spec: the constant `helpers.ClientError`, declared outside the sources
at hand, is the title of the diagnostic reporting that a remote call failed. -/
def helpers.ClientError : String := "Client Error"

/-- Modelled from the spec: the constant `helpers.Read`, declared outside the sources at
hand, names the read operation. -/
def helpers.Read : String := "read"

/-- Modelled from the spec: `helpers.ParseClientError(operation, kind, err)`, absent from the
sources at hand, renders a client error as the detail of a diagnostic carrying the
operation, the resource kind and the cause. -/
def helpers.ParseClientError (operation kind err : String) : String :=
  "Unable to " ++ operation ++ " " ++ kind ++ ", got error: " ++ err

/-! ## Schema and handlers of root_folder -/

inductive PlanModifier where
  | RequiresReplace
  | UseStateForUnknown
  deriving DecidableEq, Repr

inductive AttributeKind where
  | String
  | Bool
  | Int64
  | SetNested (attributes : List String)
  deriving DecidableEq, Repr

/-- One attribute of a resource schema. -/
structure SchemaAttribute where
  Name : String
  Kind : AttributeKind
  Required : Bool
  Computed : Bool
  PlanModifiers : List PlanModifier
  deriving DecidableEq, Repr

/-- Embedding of `RootFolderResource.Schema`: the attributes it declares. -/
def RootFolderResource.Schema : List SchemaAttribute :=
  [ { Name := "path", Kind := AttributeKind.String, Required := true, Computed := false,
      PlanModifiers := [PlanModifier.RequiresReplace] },
    { Name := "accessible", Kind := AttributeKind.Bool, Required := false, Computed := true,
      PlanModifiers := [] },
    { Name := "id", Kind := AttributeKind.Int64, Required := false, Computed := true,
      PlanModifiers := [PlanModifier.UseStateForUnknown] },
    { Name := "unmapped_folders", Kind := AttributeKind.SetNested ["path", "name"],
      Required := false, Computed := true, PlanModifiers := [] } ]

/-- How a Go argument hands over a variable: `pointer` is `&v`, through which the callee can
store a new value; `copy` is `v` itself, a copy of its current value. -/
inductive Target (α : Type) where
  | pointer (current : α)
  | copy (current : α)

/-- Framework `types.SetValueMust(elementType, elements)`: the known set of the elements. -/
def types.SetValueMust {α : Type} (elements : List (Attr α)) : TfSet α :=
  TfSet.Value elements

/-- Framework `tfsdk.ValueFrom(ctx, val, targetType, target)` for a Go slice of structs and
a set target: the slice is converted to a set (an error when an element occurs twice) and
stored through the target, which must be a pointer; a target that is no pointer is an error
and nothing is stored.  The result is the value stored, if any, and the diagnostics. -/
def tfsdk.ValueFrom {α : Type} [DecidableEq α] (val : List α) (target : Target (TfSet α)) :
    Option (TfSet α) × Diagnostics :=
  if val.Nodup then
    match target with
    | Target.pointer _ => (some (TfSet.Value (val.map Attr.Value)), [])
    | Target.copy _ =>
      (none, [NewErrorDiagnostic "Value Conversion Error" "target must be a pointer"])
  else (none, [NewErrorDiagnostic "Duplicate Set Element" "duplicate values"])

/-- Embedding of `Path.write`. -/
def Path.write (_p : Sonarr.Path) (folder : starr.Path) : Sonarr.Path :=
  { Name := types.StringValue folder.Name, Path := types.StringValue folder.Path }

/-- Embedding of `RootFolder.write`.  The last statement passes `r.UnmappedFolders` itself as the
target of `tfsdk.ValueFrom`, not its address, and drops the diagnostics. -/
def RootFolder.write (r : RootFolder) (rootFolder : sonarr.RootFolder) : RootFolder :=
  let r : RootFolder := { r with Accessible := types.BoolValue rootFolder.Accessible }
  let r : RootFolder := { r with ID := types.Int64Value rootFolder.ID }
  let r : RootFolder := { r with Path := types.StringValue rootFolder.Path }
  let r : RootFolder := { r with UnmappedFolders := types.SetValueMust [] }
  let unmapped : List Sonarr.Path :=
    rootFolder.UnmappedFolders.map
      (fun f => Sonarr.Path.write { Name := Attr.Null, Path := Attr.Null } f)
  match (tfsdk.ValueFrom unmapped (Target.copy r.UnmappedFolders)).1 with
  | some stored => { r with UnmappedFolders := stored }
  | none => r

/-- Embedding of `RootFolderResource.Create`; `none` is the nil dereference on a null plan, or a
written model that the framework cannot store. -/
def RootFolderResource.Create (client : sonarr.Sonarr) (req : CreateRequest RootFolder)
    (resp : CreateResponse RootFolder) : Option (Outcome (CreateResponse RootFolder)) :=
  let got := req.Plan.Get
  let resp : CreateResponse RootFolder :=
    { resp with Diagnostics := Diagnostics.Append resp.Diagnostics got.2 }
  if Diagnostics.HasError resp.Diagnostics then some { resp := resp, calls := [] }
  else
    match got.1 with
    | none => none
    | some folder =>
      let request : sonarr.RootFolder :=
        { Path := folder.Path.ValueString, Accessible := false, ID := 0, FreeSpace := 0,
          UnmappedFolders := [] }
      match client.AddRootFolderContext request with
      | Except.error err =>
        some { resp := { resp with
                 Diagnostics := Diagnostics.AddError resp.Diagnostics tools.ClientError
                   ("Unable to create " ++ rootFolderResourceName ++ ", got error: " ++ err) },
               calls := [ClientCall.AddRootFolder request] }
      | Except.ok response =>
        let folder := folder.write response
        match resp.State.Set folder with
        | none => none
        | some set =>
          some { resp := { State := set.1,
                           Diagnostics := Diagnostics.Append resp.Diagnostics set.2 },
                 calls := [ClientCall.AddRootFolder request] }

/-- Embedding of `RootFolderResource.Read`; `none` is the nil dereference on a null state, or a
written model that the framework cannot store. -/
def RootFolderResource.Read (client : sonarr.Sonarr) (req : ReadRequest RootFolder)
    (resp : ReadResponse RootFolder) : Option (Outcome (ReadResponse RootFolder)) :=
  let got := req.State.Get
  let resp : ReadResponse RootFolder :=
    { resp with Diagnostics := Diagnostics.Append resp.Diagnostics got.2 }
  if Diagnostics.HasError resp.Diagnostics then some { resp := resp, calls := [] }
  else
    match got.1 with
    | none => none
    | some folder =>
      match client.GetRootFolderContext folder.ID.ValueInt64 with
      | Except.error err =>
        some { resp := { resp with
                 Diagnostics := Diagnostics.AddError resp.Diagnostics tools.ClientError
                   ("Unable to read " ++ rootFolderResourceName ++ ", got error: " ++ err) },
               calls := [ClientCall.GetRootFolder folder.ID.ValueInt64] }
      | Except.ok response =>
        let written := folder.write response
        match resp.State.Set written with
        | none => none
        | some set =>
          some { resp := { State := set.1,
                           Diagnostics := Diagnostics.Append resp.Diagnostics set.2 },
                 calls := [ClientCall.GetRootFolder folder.ID.ValueInt64] }

/-- Embedding of `RootFolderResource.Update`: the body is empty. -/
def RootFolderResource.Update (_client : sonarr.Sonarr) (_req : UpdateRequest RootFolder)
    (resp : UpdateResponse RootFolder) : Option (Outcome (UpdateResponse RootFolder)) :=
  some { resp := resp, calls := [] }

/-- Embedding of `RootFolderResource.Delete`; `none` is the nil dereference on a null state. -/
def RootFolderResource.Delete (client : sonarr.Sonarr) (req : DeleteRequest RootFolder)
    (resp : DeleteResponse RootFolder) : Option (Outcome (DeleteResponse RootFolder)) :=
  let got := req.State.Get
  let resp : DeleteResponse RootFolder :=
    { resp with Diagnostics := Diagnostics.Append resp.Diagnostics got.2 }
  if Diagnostics.HasError resp.Diagnostics then some { resp := resp, calls := [] }
  else
    match got.1 with
    | none => none
    | some folder =>
      match client.DeleteRootFolderContext folder.ID.ValueInt64 with
      | some err =>
        some { resp := { resp with
                 Diagnostics := Diagnostics.AddError resp.Diagnostics tools.ClientError
                   ("Unable to read " ++ rootFolderResourceName ++ ", got error: " ++ err) },
               calls := [ClientCall.DeleteRootFolder folder.ID.ValueInt64] }
      | none =>
        some { resp := { resp with State := resp.State.RemoveResource },
               calls := [ClientCall.DeleteRootFolder folder.ID.ValueInt64] }

/-! ## Handlers of notification_mailgun -/

/-- Embedding of `NotificationMailgunResource.Create`; `none` is the nil dereference on a null plan, or a
written model that the framework cannot store. -/
def NotificationMailgunResource.Create (F : NotificationFields) (client : sonarr.Sonarr)
    (req : CreateRequest NotificationMailgun) (resp : CreateResponse NotificationMailgun) :
    Option (Outcome (CreateResponse NotificationMailgun)) :=
  let got := req.Plan.Get
  let resp : CreateResponse NotificationMailgun :=
    { resp with Diagnostics := Diagnostics.Append resp.Diagnostics got.2 }
  if Diagnostics.HasError resp.Diagnostics then some { resp := resp, calls := [] }
  else
    match got.1 with
    | none => none
    | some notification =>
      let request := notification.read F
      match client.AddNotificationContext request with
      | Except.error err =>
        some { resp := { resp with
                 Diagnostics := Diagnostics.AddError resp.Diagnostics tools.ClientError
                   ("Unable to create " ++ notificationMailgunResourceName ++
                     ", got error: " ++ err) },
               calls := [ClientCall.AddNotification request] }
      | Except.ok response =>
        let notification := notification.write F response
        match resp.State.Set notification with
        | none => none
        | some set =>
          some { resp := { State := set.1,
                           Diagnostics := Diagnostics.Append resp.Diagnostics set.2 },
                 calls := [ClientCall.AddNotification request] }

/-- Embedding of `NotificationMailgunResource.Read`; `none` is the nil dereference on a null state, or a
written model that the framework cannot store. -/
def NotificationMailgunResource.Read (F : NotificationFields) (client : sonarr.Sonarr)
    (req : ReadRequest NotificationMailgun) (resp : ReadResponse NotificationMailgun) :
    Option (Outcome (ReadResponse NotificationMailgun)) :=
  let got := req.State.Get
  let resp : ReadResponse NotificationMailgun :=
    { resp with Diagnostics := Diagnostics.Append resp.Diagnostics got.2 }
  if Diagnostics.HasError resp.Diagnostics then some { resp := resp, calls := [] }
  else
    match got.1 with
    | none => none
    | some notification =>
      match client.GetNotificationContext (toInt notification.ID.ValueInt64) with
      | Except.error err =>
        some { resp := { resp with
                 Diagnostics := Diagnostics.AddError resp.Diagnostics tools.ClientError
                   ("Unable to read " ++ notificationMailgunResourceName ++
                     ", got error: " ++ err) },
               calls := [ClientCall.GetNotification (toInt notification.ID.ValueInt64)] }
      | Except.ok response =>
        let written := notification.write F response
        match resp.State.Set written with
        | none => none
        | some set =>
          some { resp := { State := set.1,
                           Diagnostics := Diagnostics.Append resp.Diagnostics set.2 },
                 calls := [ClientCall.GetNotification (toInt notification.ID.ValueInt64)] }

/-- Embedding of `NotificationMailgunResource.Update`; `none` is the nil dereference on a null plan, or a
written model that the framework cannot store. -/
def NotificationMailgunResource.Update (F : NotificationFields) (client : sonarr.Sonarr)
    (req : UpdateRequest NotificationMailgun) (resp : UpdateResponse NotificationMailgun) :
    Option (Outcome (UpdateResponse NotificationMailgun)) :=
  let got := req.Plan.Get
  let resp : UpdateResponse NotificationMailgun :=
    { resp with Diagnostics := Diagnostics.Append resp.Diagnostics got.2 }
  if Diagnostics.HasError resp.Diagnostics then some { resp := resp, calls := [] }
  else
    match got.1 with
    | none => none
    | some notification =>
      let request := notification.read F
      match client.UpdateNotificationContext request with
      | Except.error err =>
        some { resp := { resp with
                 Diagnostics := Diagnostics.AddError resp.Diagnostics tools.ClientError
                   ("Unable to update " ++ notificationMailgunResourceName ++
                     ", got error: " ++ err) },
               calls := [ClientCall.UpdateNotification request] }
      | Except.ok response =>
        let notification := notification.write F response
        match resp.State.Set notification with
        | none => none
        | some set =>
          some { resp := { State := set.1,
                           Diagnostics := Diagnostics.Append resp.Diagnostics set.2 },
                 calls := [ClientCall.UpdateNotification request] }

/-- Embedding of `NotificationMailgunResource.Delete`; `none` is the nil dereference on a null
state. -/
def NotificationMailgunResource.Delete (client : sonarr.Sonarr)
    (req : DeleteRequest NotificationMailgun) (resp : DeleteResponse NotificationMailgun) :
    Option (Outcome (DeleteResponse NotificationMailgun)) :=
  let got := req.State.Get
  let resp : DeleteResponse NotificationMailgun :=
    { resp with Diagnostics := Diagnostics.Append resp.Diagnostics got.2 }
  if Diagnostics.HasError resp.Diagnostics then some { resp := resp, calls := [] }
  else
    match got.1 with
    | none => none
    | some notification =>
      match client.DeleteNotificationContext notification.ID.ValueInt64 with
      | some err =>
        some { resp := { resp with
                 Diagnostics := Diagnostics.AddError resp.Diagnostics tools.ClientError
                   ("Unable to read " ++ notificationMailgunResourceName ++
                     ", got error: " ++ err) },
               calls := [ClientCall.DeleteNotification notification.ID.ValueInt64] }
      | none =>
        some { resp := { resp with State := resp.State.RemoveResource },
               calls := [ClientCall.DeleteNotification notification.ID.ValueInt64] }

/-! ## Read of the two data sources -/

/-- Modelled from the spec: the model struct `ImportListExclusion` is declared outside the
sources at hand; as the flat record mirroring the entity it has one field per attribute of
the schema that the data source declares (`tvdb_id`, `title`, `id`). -/
structure ImportListExclusion where
  Title : TfString
  TVDBID : TfInt64
  ID : TfInt64
  deriving DecidableEq, Repr

instance : Storable ImportListExclusion where
  storable := fun _ => true

/-- The converter `ImportListExclusion.write(record)` is declared outside the sources at
hand and is taken as a parameter: from the model and the API record (a pointer) it gives
the new model. -/
abbrev ImportListExclusionWriter : Type :=
  ImportListExclusion → Option ImportListExclusionResource → ImportListExclusion

/-- Embedding of `ImportListExclusionDataSource.Read`; `none` is the nil dereference on a null
configuration, or a written model that the framework cannot store. -/
def ImportListExclusionDataSource.Read (write : ImportListExclusionWriter)
    (client : sonarr.APIClient) (req : DataSourceReadRequest ImportListExclusion)
    (resp : DataSourceReadResponse ImportListExclusion) :
    Option (Outcome (DataSourceReadResponse ImportListExclusion)) :=
  let got := req.Config.Get
  let resp : DataSourceReadResponse ImportListExclusion :=
    { resp with Diagnostics := Diagnostics.Append resp.Diagnostics got.2 }
  if Diagnostics.HasError resp.Diagnostics then some { resp := resp, calls := [] }
  else
    match client.ListImportListExclusion with
    | Except.error err =>
      some { resp := { resp with
               Diagnostics := Diagnostics.AddError resp.Diagnostics helpers.ClientError
                 (helpers.ParseClientError helpers.Read importListExclusionDataSourceName err) },
             calls := [ClientCall.ListImportListExclusion] }
    | Except.ok response =>
      match got.1 with
      | none => none
      | some importListExclusion =>
        match findImportListExclusion importListExclusion.TVDBID.ValueInt64 response with
        | (_, some err) =>
          some { resp := { resp with
                   Diagnostics := Diagnostics.AddError resp.Diagnostics helpers.DataSourceError
                     ("Unable to find " ++ importListExclusionDataSourceName ++
                       ", got error: " ++ err.Error) },
                 calls := [ClientCall.ListImportListExclusion] }
        | (value, none) =>
          let importListExclusion := write importListExclusion value
          match resp.State.Set importListExclusion with
          | none => none
          | some set =>
            some { resp := { State := set.1,
                             Diagnostics := Diagnostics.Append resp.Diagnostics set.2 },
                   calls := [ClientCall.ListImportListExclusion] }

/-- Embedding of `ImportListDataSource.Read`; `none` is the nil dereference on a null configuration,
or a model that the framework cannot store.  The state is set after `find` whatever `find`
reported. -/
def ImportListDataSource.Read (write : ImportListWriter) (client : sonarr.APIClient)
    (req : DataSourceReadRequest ImportList) (resp : DataSourceReadResponse ImportList) :
    Option (Outcome (DataSourceReadResponse ImportList)) :=
  let got := req.Config.Get
  let resp : DataSourceReadResponse ImportList :=
    { resp with Diagnostics := Diagnostics.Append resp.Diagnostics got.2 }
  if Diagnostics.HasError resp.Diagnostics then some { resp := resp, calls := [] }
  else
    match client.ListImportList with
    | Except.error err =>
      some { resp := { resp with
               Diagnostics := Diagnostics.AddError resp.Diagnostics helpers.ClientError
                 (helpers.ParseClientError helpers.Read importListDataSourceName err) },
             calls := [ClientCall.ListImportList] }
    | Except.ok response =>
      match got.1 with
      | none => none
      | some data =>
        let found := data.find write data.Name.ValueString response resp.Diagnostics
        match resp.State.Set found.1 with
        | none => none
        | some set =>
          some { resp := { State := set.1, Diagnostics := Diagnostics.Append found.2 set.2 },
                 calls := [ClientCall.ListImportList] }

/-! ## Examples of clients -/

/-- A client whose every call fails with the message `boom`. -/
def failingClient : sonarr.Sonarr :=
  { AddNotificationContext := fun _ => Except.error "boom"
    GetNotificationContext := fun _ => Except.error "boom"
    UpdateNotificationContext := fun _ => Except.error "boom"
    DeleteNotificationContext := fun _ => some "boom"
    AddRootFolderContext := fun _ => Except.error "boom"
    GetRootFolderContext := fun _ => Except.error "boom"
    DeleteRootFolderContext := fun _ => some "boom" }

/-- A remote that stores what it is sent: notifications are echoed with ID 12, a root folder
is stored under ID 7 with its path ending in a slash and one unmapped folder. -/
def echoClient : sonarr.Sonarr :=
  { AddNotificationContext := fun r => Except.ok
      { OnGrab := r.OnGrab, OnDownload := r.OnDownload, OnUpgrade := r.OnUpgrade,
        OnRename := r.OnRename, OnSeriesDelete := r.OnSeriesDelete,
        OnEpisodeFileDelete := r.OnEpisodeFileDelete,
        OnEpisodeFileDeleteForUpgrade := r.OnEpisodeFileDeleteForUpgrade,
        OnHealthIssue := r.OnHealthIssue, OnApplicationUpdate := r.OnApplicationUpdate,
        IncludeHealthWarnings := r.IncludeHealthWarnings, ID := 12, Name := r.Name,
        ImplementationName := r.Implementation, Implementation := r.Implementation,
        ConfigContract := r.ConfigContract, Tags := r.Tags, Fields := [] }
    GetNotificationContext := fun _ => Except.ok sampleNotification
    UpdateNotificationContext := fun r => Except.ok
      { OnGrab := r.OnGrab, OnDownload := r.OnDownload, OnUpgrade := r.OnUpgrade,
        OnRename := r.OnRename, OnSeriesDelete := r.OnSeriesDelete,
        OnEpisodeFileDelete := r.OnEpisodeFileDelete,
        OnEpisodeFileDeleteForUpgrade := r.OnEpisodeFileDeleteForUpgrade,
        OnHealthIssue := r.OnHealthIssue, OnApplicationUpdate := r.OnApplicationUpdate,
        IncludeHealthWarnings := r.IncludeHealthWarnings, ID := r.ID, Name := r.Name,
        ImplementationName := r.Implementation, Implementation := r.Implementation,
        ConfigContract := r.ConfigContract, Tags := r.Tags, Fields := [] }
    DeleteNotificationContext := fun _ => none
    AddRootFolderContext := fun r => Except.ok
      { Accessible := true, ID := 7, FreeSpace := 1000, Path := r.Path ++ "/",
        UnmappedFolders := [{ Name := "old", Path := r.Path ++ "/old" }] }
    GetRootFolderContext := fun id => Except.ok
      { Accessible := true, ID := id, FreeSpace := 1000, Path := "/tv/",
        UnmappedFolders := [{ Name := "old", Path := "/tv/old" }] }
    DeleteRootFolderContext := fun _ => none }

/-- A remote that stores a root folder under ID 7 with the path it was sent. -/
def plainClient : sonarr.Sonarr :=
  { echoClient with
    AddRootFolderContext := fun r => Except.ok
      { Accessible := true, ID := 7, FreeSpace := 1000, Path := r.Path, UnmappedFolders := [] }
    GetRootFolderContext := fun id => Except.ok
      { Accessible := true, ID := id, FreeSpace := 1000, Path := "/tv",
        UnmappedFolders := [] } }

/-- A planned mailgun notification with every required attribute known. -/
def samplePlan : NotificationMailgun :=
  { Tags := TfSet.Unknown, Recipients := TfSet.Value [Attr.Value "me@example.org"],
    From := Attr.Value "tv@example.org", SenderDomain := Attr.Unknown,
    Name := Attr.Value "mail", APIKey := Attr.Unknown, ID := Attr.Unknown,
    UseEuEndpoint := Attr.Unknown, OnGrab := Attr.Value true,
    OnEpisodeFileDeleteForUpgrade := Attr.Value false,
    OnEpisodeFileDelete := Attr.Value true, IncludeHealthWarnings := Attr.Value false,
    OnApplicationUpdate := Attr.Value true, OnHealthIssue := Attr.Value false,
    OnSeriesDelete := Attr.Value true, OnUpgrade := Attr.Value false,
    OnDownload := Attr.Value true }

/-- A planned root folder: the path is configured, the computed attributes are unknown. -/
def sampleFolderPlan : RootFolder :=
  { UnmappedFolders := TfSet.Unknown, Path := Attr.Value "/tv", ID := Attr.Unknown,
    Accessible := Attr.Unknown }

/-- A generated client whose listings succeed with the example collections. -/
def sampleAPIClient : sonarr.APIClient :=
  { ListImportListExclusion := Except.ok sampleExclusions
    ListImportList := Except.ok sampleImportLists }

/-- A model writer used to run the exclusion data source on examples. -/
def sampleExclusionWriter : ImportListExclusionWriter :=
  fun _ value =>
    { Title := Attr.Value ((value.bind (fun v => v.Title)).getD ""),
      TVDBID := Attr.Value (ImportListExclusionResource.GetTvdbId value),
      ID := Attr.Value ((value.bind (fun v => v.Id)).getD 0) }

/-! ## Vocabulary of the statements on the handlers -/

/-- An attribute value that is known (neither null nor unknown). -/
def Attr.IsKnown {α : Type} : Attr α → Bool
  | Attr.Value _ => true
  | _ => false

/-- The nine event flags and the name of a planned notification are known. -/
def NotificationMailgun.ConfiguredKnown (n : NotificationMailgun) : Prop :=
  n.OnGrab.IsKnown = true ∧
  n.OnDownload.IsKnown = true ∧
  n.OnUpgrade.IsKnown = true ∧
  n.OnSeriesDelete.IsKnown = true ∧
  n.OnEpisodeFileDelete.IsKnown = true ∧
  n.OnEpisodeFileDeleteForUpgrade.IsKnown = true ∧
  n.OnHealthIssue.IsKnown = true ∧
  n.OnApplicationUpdate.IsKnown = true ∧
  n.IncludeHealthWarnings.IsKnown = true ∧
  n.Name.IsKnown = true

/-- Two models hold the same nine event flags and the same name. -/
def NotificationMailgun.SameConfigured (m n : NotificationMailgun) : Prop :=
  m.OnGrab = n.OnGrab ∧
  m.OnDownload = n.OnDownload ∧
  m.OnUpgrade = n.OnUpgrade ∧
  m.OnSeriesDelete = n.OnSeriesDelete ∧
  m.OnEpisodeFileDelete = n.OnEpisodeFileDelete ∧
  m.OnEpisodeFileDeleteForUpgrade = n.OnEpisodeFileDeleteForUpgrade ∧
  m.OnHealthIssue = n.OnHealthIssue ∧
  m.OnApplicationUpdate = n.OnApplicationUpdate ∧
  m.IncludeHealthWarnings = n.IncludeHealthWarnings ∧
  m.Name = n.Name

/-- The response of the remote echoes a request: same nine event flags, same name. -/
def NotificationOutput.Echoes (response : NotificationOutput) (request : NotificationInput) :
    Prop :=
  response.OnGrab = request.OnGrab ∧
  response.OnDownload = request.OnDownload ∧
  response.OnUpgrade = request.OnUpgrade ∧
  response.OnSeriesDelete = request.OnSeriesDelete ∧
  response.OnEpisodeFileDelete = request.OnEpisodeFileDelete ∧
  response.OnEpisodeFileDeleteForUpgrade = request.OnEpisodeFileDeleteForUpgrade ∧
  response.OnHealthIssue = request.OnHealthIssue ∧
  response.OnApplicationUpdate = request.OnApplicationUpdate ∧
  response.IncludeHealthWarnings = request.IncludeHealthWarnings ∧
  response.Name = request.Name

instance (n : NotificationMailgun) : Decidable n.ConfiguredKnown := by
  unfold NotificationMailgun.ConfiguredKnown; infer_instance

instance (m n : NotificationMailgun) : Decidable (m.SameConfigured n) := by
  unfold NotificationMailgun.SameConfigured; infer_instance

instance (response : NotificationOutput) (request : NotificationInput) :
    Decidable (response.Echoes request) := by
  unfold NotificationOutput.Echoes; infer_instance

/-- The match that the exclusion scan tests on an element, as a Boolean. -/
def matchesExclusion (q : Int) (t : Option ImportListExclusionResource) : Bool :=
  decide (ImportListExclusionResource.GetTvdbId t = toInt32 q)

/-! ## Vocabulary of the statement on signed identifiers -/

/-- The integer a numeric identifier denotes: the value of its digits, negated after a
leading `-`. -/
def signedValue (s : String) : Int :=
  match s.data with
  | [] => 0
  | c :: cs =>
    if c = '-' then -(decimalValue cs : Int)
    else if c = '+' then (decimalValue cs : Int)
    else (decimalValue (c :: cs) : Int)

/-- An identifier that is an optional single sign followed by one or more decimal digits
whose value fits a signed 64-bit integer. -/
def IsSignedDecimalInt64 (s : String) : Prop := IsNumeric s ∧ InInt64 (signedValue s)

instance (s : String) : Decidable (IsSignedDecimalInt64 s) := by
  unfold IsSignedDecimalInt64; infer_instance

/-! ## Vocabulary of the statements on the settings fields -/

/-- The generic notification that `NotificationMailgun.write` builds from an API object
before it hands it to `writeFields`: flags, ID and name from the object, the tags converted
to a set, every settings attribute at its Go zero value. -/
def NotificationOutput.toGeneric (x : NotificationOutput) : Notification :=
  { OnGrab := types.BoolValue x.OnGrab,
    OnDownload := types.BoolValue x.OnDownload,
    OnUpgrade := types.BoolValue x.OnUpgrade,
    OnSeriesDelete := types.BoolValue x.OnSeriesDelete,
    OnEpisodeFileDelete := types.BoolValue x.OnEpisodeFileDelete,
    OnEpisodeFileDeleteForUpgrade := types.BoolValue x.OnEpisodeFileDeleteForUpgrade,
    OnHealthIssue := types.BoolValue x.OnHealthIssue,
    OnApplicationUpdate := types.BoolValue x.OnApplicationUpdate,
    IncludeHealthWarnings := types.BoolValue x.IncludeHealthWarnings,
    ID := types.Int64Value x.ID,
    Name := types.StringValue x.Name,
    Tags := types.SetValueFrom x.Tags, Recipients := TfSet.Zero, SenderDomain := Attr.Null,
    APIKey := Attr.Null, UseEuEndpoint := Attr.Null, From := Attr.Null }

/-- The settings fields of an API object let `writeFields` fill the recipients: after it
the attribute is no longer the zero-value set. -/
def NotificationFields.FillsRecipients (F : NotificationFields) (x : NotificationOutput) :
    Prop :=
  (F.writeFields x.toGeneric x.Fields).Recipients.IsZero = false

instance (F : NotificationFields) (x : NotificationOutput) :
    Decidable (F.FillsRecipients x) := by
  unfold NotificationFields.FillsRecipients; infer_instance

/-- The known elements of a set of strings. -/
def TfSet.knownStrings : TfSet String → List String
  | TfSet.Value elements =>
    elements.filterMap (fun e => match e with
      | Attr.Value v => some v
      | _ => none)
  | _ => []

/-- Converters used to run the handlers on examples: `writeFields` fills the recipients from
the settings field `recipients`, `readFields` sends them back. -/
def mailgunFields : NotificationFields :=
  { writeFields := fun g fs =>
      match fs.find? (fun f => f.Name == "recipients") with
      | some f =>
        match f.Value with
        | FieldValue.Strs vs => { g with Recipients := TfSet.Value (vs.map Attr.Value) }
        | _ => g
      | none => g
    readFields := fun g =>
      [{ Name := "recipients", Value := FieldValue.Strs g.Recipients.knownStrings }] }

/-- A remote that stores a notification as sent, settings fields included, under ID 12. -/
def storingClient : sonarr.Sonarr :=
  { echoClient with
    AddNotificationContext := fun r => Except.ok
      { OnGrab := r.OnGrab, OnDownload := r.OnDownload, OnUpgrade := r.OnUpgrade,
        OnRename := r.OnRename, OnSeriesDelete := r.OnSeriesDelete,
        OnEpisodeFileDelete := r.OnEpisodeFileDelete,
        OnEpisodeFileDeleteForUpgrade := r.OnEpisodeFileDeleteForUpgrade,
        OnHealthIssue := r.OnHealthIssue, OnApplicationUpdate := r.OnApplicationUpdate,
        IncludeHealthWarnings := r.IncludeHealthWarnings, ID := 12, Name := r.Name,
        ImplementationName := r.Implementation, Implementation := r.Implementation,
        ConfigContract := r.ConfigContract, Tags := r.Tags,
        Fields := r.Fields.map (fun f => { Name := f.Name, Value := f.Value }) } }

/-- A listing with one exclusion, of TVDB ID 5. -/
def wrappedListing : List (Option ImportListExclusionResource) :=
  [some { Id := some 1, TvdbId := some 5, Title := some "excluded" }]

/-- A generated client whose exclusion listing is `wrappedListing`. -/
def wrappedAPIClient : sonarr.APIClient :=
  { ListImportListExclusion := Except.ok wrappedListing
    ListImportList := Except.ok [] }

/-! ## Arithmetic of the conversions -/

theorem toInt32_of_inInt32 (x : Int) (h : InInt32 x) : toInt32 x = x := by
  unfold InInt32 at h
  unfold toInt32 wrapSigned
  have h1 : (x + 2 ^ (32 - 1)) % 2 ^ 32 = x + 2 ^ (32 - 1) := by
    apply Int.emod_eq_of_lt <;> norm_num <;> omega
  rw [h1]; ring

theorem toInt_of_inInt64 (x : Int) (h : InInt64 x) : toInt x = x := by
  unfold InInt64 at h
  unfold toInt wrapSigned intSize
  have h1 : (x + 2 ^ (64 - 1)) % 2 ^ 64 = x + 2 ^ (64 - 1) := by
    apply Int.emod_eq_of_lt <;> norm_num <;> omega
  rw [h1]; ring

/-! ## Properties of `findImportListExclusion` -/

/-- What the scan guarantees about a returned element: it belongs to the collection and its
TVDB ID equals the query converted to `int32`. -/
theorem findImportListExclusion_found (q : Int) (c : List (Option ImportListExclusionResource))
    (h : (findImportListExclusion q c).2 = none) :
    (findImportListExclusion q c).1 ∈ c ∧
      ImportListExclusionResource.GetTvdbId (findImportListExclusion q c).1 = toInt32 q := by
  induction c with
  | nil => simp [findImportListExclusion] at h
  | cons t rest ih =>
    unfold findImportListExclusion at h ⊢
    by_cases hm : ImportListExclusionResource.GetTvdbId t = toInt32 q
    · simp [hm]
    · simp only [hm, if_false] at h ⊢
      exact ⟨List.mem_cons_of_mem _ (ih h).1, (ih h).2⟩

/-- An error is returned exactly when no element matches, and then it is the not-found error
and no element is returned. -/
theorem findImportListExclusion_error (q : Int) (c : List (Option ImportListExclusionResource))
    (e : DataNotFoundError) (h : (findImportListExclusion q c).2 = some e) :
    (findImportListExclusion q c).1 = none ∧
      e = ErrDataNotFoundError importListExclusionDataSourceName "tvdb_id" (Itoa (toInt q)) := by
  induction c with
  | nil =>
    simp only [findImportListExclusion, Option.some.injEq] at h ⊢
    exact ⟨trivial, h.symm⟩
  | cons t rest ih =>
    unfold findImportListExclusion at h ⊢
    by_cases hm : ImportListExclusionResource.GetTvdbId t = toInt32 q
    · simp [hm] at h
    · simp only [hm, if_false] at h ⊢
      exact ih h

/-- The scan returns the element at the first position whose TVDB ID equals the query
converted to `int32`. -/
theorem findImportListExclusion_position (q : Int)
    (xs : List (Option ImportListExclusionResource))
    (h : (findImportListExclusion q xs).2 = none) :
    ∃ i : Nat, xs[i]? = some (findImportListExclusion q xs).1 ∧
      ∀ j : Nat, j < i → ∀ t, xs[j]? = some t →
        ImportListExclusionResource.GetTvdbId t ≠ toInt32 q := by
  induction xs with
  | nil => simp [findImportListExclusion] at h
  | cons t rest ih =>
    unfold findImportListExclusion at h ⊢
    by_cases hm : ImportListExclusionResource.GetTvdbId t = toInt32 q
    · refine ⟨0, by simp [hm], ?_⟩
      intro j hj
      omega
    · simp only [hm, if_false] at h ⊢
      obtain ⟨i, hi, hbefore⟩ := ih h
      refine ⟨i + 1, by simpa using hi, ?_⟩
      intro j hj u hu
      cases j with
      | zero =>
        simp only [List.getElem?_cons_zero, Option.some.injEq] at hu
        subst hu
        exact hm
      | succ k =>
        simp only [List.getElem?_cons_succ] at hu
        exact hbefore k (by omega) u hu

/-! ## Properties of `ImportList.find` -/

theorem Diagnostics.AddError_fresh (diags : Diagnostics) (summary detail : String)
    (h : NewErrorDiagnostic summary detail ∉ diags) :
    Diagnostics.AddError diags summary detail = diags ++ [NewErrorDiagnostic summary detail] := by
  simp [Diagnostics.AddError, Diagnostics.Append, h]

theorem Diagnostics.Append_nil (diags : Diagnostics) : Diagnostics.Append diags [] = diags := by
  simp [Diagnostics.Append]

theorem ImportList.find_reports_missing_name (write : ImportListWriter) (i : ImportList)
    (name : String) (lists : List ImportListResource) (diags : Diagnostics)
    (h : ∀ l ∈ lists, l.GetName ≠ name)
    (hfresh : NewErrorDiagnostic helpers.DataSourceError
      (helpers.ParseNotFoundError "import_list" "name" name) ∉ diags) :
    ImportList.find write i name lists diags =
      (i, diags ++ [NewErrorDiagnostic helpers.DataSourceError
        (helpers.ParseNotFoundError "import_list" "name" name)]) := by
  induction lists with
  | nil =>
    simp only [ImportList.find, importListDataSourceName]
    rw [Diagnostics.AddError_fresh diags _ _ hfresh]
  | cons a rest ih =>
    have ha : a.GetName ≠ name := h a (List.mem_cons_self _ _)
    have hrest : ∀ l ∈ rest, l.GetName ≠ name := fun l hl => h l (List.mem_cons_of_mem _ hl)
    simp only [ImportList.find, ha, if_false]
    exact ih hrest

/-! ## The claims on the data-source lookups -/

/-- C1: the lookup compares at 32 bits, so a 64-bit query outside the `int32` range gets a
record whose TVDB ID is not the query: for the query `2 ^ 32 + 5` and a collection holding
one record with TVDB ID 5, `findImportListExclusion` returns that record without error. -/
theorem findImportListExclusion_query_wraps :
    InInt64 4294967301 ∧
    findImportListExclusion 4294967301
        [some { Id := some 1, TvdbId := some 5, Title := some "excluded" }]
      = (some { Id := some 1, TvdbId := some 5, Title := some "excluded" }, none) ∧
    ImportListExclusionResource.GetTvdbId
        (findImportListExclusion 4294967301
          [some { Id := some 1, TvdbId := some 5, Title := some "excluded" }]).1 = 5 ∧
    (5 : Int) ≠ 4294967301 := by
  decide

/-- C2: for every 64-bit query `q` and every collection, an error returned by
`findImportListExclusion` comes with no record and is the not-found error for kind
`import_list_exclusion`, field `tvdb_id` and the decimal rendering of `q`; on the empty
collection that error is returned. -/
theorem findImportListExclusion_not_found (q : Int) (hq : InInt64 q)
    (c : List (Option ImportListExclusionResource)) :
    (∀ e, (findImportListExclusion q c).2 = some e →
      (findImportListExclusion q c).1 = none ∧
        e = ErrDataNotFoundError "import_list_exclusion" "tvdb_id" (Itoa q)) ∧
    findImportListExclusion q [] =
      (none, some (ErrDataNotFoundError "import_list_exclusion" "tvdb_id" (Itoa q))) := by
  constructor
  · intro e he
    have h := findImportListExclusion_error q c e he
    rw [toInt_of_inInt64 q hq] at h
    exact h
  · simp [findImportListExclusion, importListExclusionDataSourceName, toInt_of_inInt64 q hq]

theorem findImportListExclusion_not_found_witness :
    InInt64 42 ∧
    findImportListExclusion 42 [] =
      (none, some (ErrDataNotFoundError "import_list_exclusion" "tvdb_id" "42")) :=
  ⟨by decide, (findImportListExclusion_not_found 42 (by decide) []).2⟩

/-- C3: first match wins.  When `findImportListExclusion` returns without error, what it
returns is the element at some position `i` of the collection, that element matches the
query (its TVDB ID is the query converted to `int32`), and no element before `i` matches,
neither at 32 bits (the comparison the scan makes) nor as the 64-bit value itself.  And
when some record of the collection carries the searched TVDB ID, the scan returns without
error a record that carries it; so among several such records the earliest in collection
order is returned. -/
theorem findImportListExclusion_first_match (q : Int)
    (xs : List (Option ImportListExclusionResource)) (hc : WellFormedExclusions xs) :
    ((findImportListExclusion q xs).2 = none →
      ∃ i : Nat, xs[i]? = some (findImportListExclusion q xs).1 ∧
        ImportListExclusionResource.GetTvdbId (findImportListExclusion q xs).1 = toInt32 q ∧
        ∀ j : Nat, j < i → ∀ t, xs[j]? = some t →
          ImportListExclusionResource.GetTvdbId t ≠ toInt32 q ∧
          ImportListExclusionResource.GetTvdbId t ≠ q) ∧
    ((∃ t ∈ xs, ImportListExclusionResource.GetTvdbId t = q) →
      (findImportListExclusion q xs).2 = none ∧
      ImportListExclusionResource.GetTvdbId (findImportListExclusion q xs).1 = q) := by
  constructor
  · intro h
    obtain ⟨i, hi, hbefore⟩ := findImportListExclusion_position q xs h
    refine ⟨i, hi, (findImportListExclusion_found q xs h).2, ?_⟩
    intro j hj t ht
    have h32 := hbefore j hj t ht
    refine ⟨h32, ?_⟩
    intro heq
    have hmem : t ∈ xs := List.getElem?_mem ht
    have hr : InInt32 q := heq ▸ hc t hmem
    exact h32 (by rw [toInt32_of_inInt32 q hr]; exact heq)
  · rintro ⟨t, ht, heq⟩
    have hr : InInt32 q := heq ▸ hc t ht
    have h32 : toInt32 q = q := toInt32_of_inInt32 q hr
    have hnone : (findImportListExclusion q xs).2 = none := by
      cases herr : (findImportListExclusion q xs).2 with
      | none => rfl
      | some e =>
        exfalso
        clear hc hr
        induction xs with
        | nil => simp at ht
        | cons a rest ih =>
          unfold findImportListExclusion at herr
          by_cases hm : ImportListExclusionResource.GetTvdbId a = toInt32 q
          · simp [hm] at herr
          · simp only [hm, if_false] at herr
            rcases List.mem_cons.mp ht with rfl | hrest
            · exact hm (by rw [h32]; exact heq)
            · exact ih hrest herr
    exact ⟨hnone, by rw [(findImportListExclusion_found q xs hnone).2, h32]⟩

theorem findImportListExclusion_first_match_witness :
    WellFormedExclusions sampleExclusions ∧
    findImportListExclusion 9 sampleExclusions =
      (some { Id := some 2, TvdbId := some 9, Title := some "first" }, none) ∧
    (∃ i : Nat, sampleExclusions[i]? = some (findImportListExclusion 9 sampleExclusions).1 ∧
      ImportListExclusionResource.GetTvdbId (findImportListExclusion 9 sampleExclusions).1 =
        toInt32 9 ∧
      ∀ j : Nat, j < i → ∀ t, sampleExclusions[j]? = some t →
        ImportListExclusionResource.GetTvdbId t ≠ toInt32 9 ∧
        ImportListExclusionResource.GetTvdbId t ≠ 9) ∧
    ((findImportListExclusion 9 sampleExclusions).2 = none ∧
      ImportListExclusionResource.GetTvdbId (findImportListExclusion 9 sampleExclusions).1 =
        9) :=
  ⟨by decide, by decide,
    (findImportListExclusion_first_match 9 sampleExclusions (by decide)).1 (by decide),
    (findImportListExclusion_first_match 9 sampleExclusions (by decide)).2
      ⟨some { Id := some 3, TvdbId := some 9, Title := some "second" }, by decide,
        by decide⟩⟩

/-- C4: when some list of the collection has the searched name, `ImportList.find` returns
exactly what the model writer gives for the first such list in collection order: the model
is written once, from that list, and `find` adds no diagnostic of its own. -/
theorem ImportList.find_writes_first_named (write : ImportListWriter) (i : ImportList)
    (name : String) (lists : List ImportListResource) (diags : Diagnostics)
    (h : ∃ l ∈ lists, l.GetName = name) :
    ∃ (k : Nat) (l : ImportListResource), lists[k]? = some l ∧ l.GetName = name ∧
      (∀ j : Nat, j < k → ∀ l0, lists[j]? = some l0 → l0.GetName ≠ name) ∧
      ImportList.find write i name lists diags = write i l diags := by
  induction lists with
  | nil => simp at h
  | cons a rest ih =>
    by_cases ha : a.GetName = name
    · refine ⟨0, a, by simp, ha, ?_, by simp [ImportList.find, ha]⟩
      intro j hj
      omega
    · have hrest : ∃ l ∈ rest, l.GetName = name := by
        obtain ⟨l, hl, hn⟩ := h
        rcases List.mem_cons.mp hl with rfl | hl
        · exact absurd hn ha
        · exact ⟨l, hl, hn⟩
      obtain ⟨k, l, hk, hn, hbefore, hfind⟩ := ih hrest
      refine ⟨k + 1, l, by simpa using hk, hn, ?_, by simp [ImportList.find, ha, hfind]⟩
      intro j hj l0 hl0
      cases j with
      | zero =>
        simp only [List.getElem?_cons_zero, Option.some.injEq] at hl0
        subst hl0
        exact ha
      | succ m =>
        simp only [List.getElem?_cons_succ] at hl0
        exact hbefore m (by omega) l0 hl0

theorem ImportList.find_writes_first_named_witness :
    (∃ l ∈ sampleImportLists, l.GetName = "tv") ∧
    ImportList.find sampleWriter ImportList.allNull "tv" sampleImportLists [] =
      ({ ImportList.allNull with ID := Attr.Value 2, Name := Attr.Value "tv" }, []) ∧
    ∃ (k : Nat) (l : ImportListResource), sampleImportLists[k]? = some l ∧ l.GetName = "tv" ∧
      (∀ j : Nat, j < k → ∀ l0, sampleImportLists[j]? = some l0 → l0.GetName ≠ "tv") ∧
      ImportList.find sampleWriter ImportList.allNull "tv" sampleImportLists [] =
        sampleWriter ImportList.allNull l [] :=
  ⟨⟨ImportListResource.named 2 "tv", by decide, by decide⟩, by decide,
    ImportList.find_writes_first_named sampleWriter ImportList.allNull "tv" sampleImportLists []
      ⟨ImportListResource.named 2 "tv", by decide, by decide⟩⟩

/-- C5: when no list of the collection has the searched name (the empty collection
included), `ImportList.find` leaves the model as it was and adds exactly one diagnostic, the
data-source error whose detail is the not-found error for kind `import_list`, field `name`
and the searched name; the diagnostics are those of a caller that has not reported this
error already. -/
theorem ImportList.find_not_found (write : ImportListWriter) (i : ImportList)
    (name : String) (lists : List ImportListResource) (diags : Diagnostics)
    (h : ∀ l ∈ lists, l.GetName ≠ name)
    (hfresh : NewErrorDiagnostic helpers.DataSourceError
      (helpers.ParseNotFoundError "import_list" "name" name) ∉ diags) :
    ImportList.find write i name lists diags =
      (i, diags ++ [NewErrorDiagnostic helpers.DataSourceError
        (helpers.ParseNotFoundError "import_list" "name" name)]) := by
  induction lists with
  | nil =>
    simp only [ImportList.find, importListDataSourceName]
    rw [Diagnostics.AddError_fresh diags _ _ hfresh]
  | cons a rest ih =>
    have ha : a.GetName ≠ name := h a (List.mem_cons_self _ _)
    have hrest : ∀ l ∈ rest, l.GetName ≠ name := fun l hl => h l (List.mem_cons_of_mem _ hl)
    simp only [ImportList.find, ha, if_false]
    exact ih hrest

theorem ImportList.find_not_found_witness :
    (∀ l ∈ sampleImportLists, l.GetName ≠ "movies") ∧
    ImportList.find sampleWriter ImportList.allNull "movies" sampleImportLists [] =
      (ImportList.allNull,
        [{ severity := Severity.Error, summary := "Data Source Error",
           detail := "data source not found: no import_list with name 'movies'" }]) :=
  ⟨by decide,
    ImportList.find_not_found sampleWriter ImportList.allNull "movies" sampleImportLists []
      (by decide) (by simp)⟩

/-! ## Properties of `strconv.Atoi` and of the `%q` verb -/

theorem decimal_foldl_ge (cs : List Char) (n : Nat) :
    n ≤ cs.foldl (fun acc c => acc * 10 + digitVal c) n := by
  induction cs generalizing n with
  | nil => simp
  | cons c cs ih =>
    simp only [List.foldl_cons]
    exact le_trans (by omega) (ih (n * 10 + digitVal c))

theorem parseUintDigits_of_digits (cs : List Char) (n : Nat)
    (hd : ∀ c ∈ cs, isDigit c = true)
    (hlt : cs.foldl (fun acc c => acc * 10 + digitVal c) n < 18446744073709551616) :
    parseUintDigits cs n = Except.ok (cs.foldl (fun acc c => acc * 10 + digitVal c) n) := by
  induction cs generalizing n with
  | nil => simp [parseUintDigits]
  | cons c cs ih =>
    have hc : isDigit c = true := hd c (List.mem_cons_self _ _)
    have hrest : ∀ d ∈ cs, isDigit d = true := fun d hmem => hd d (List.mem_cons_of_mem _ hmem)
    simp only [List.foldl_cons] at hlt ⊢
    have hstep : n * 10 + digitVal c < 18446744073709551616 :=
      lt_of_le_of_lt (decimal_foldl_ge cs (n * 10 + digitVal c)) hlt
    simp only [parseUintDigits, hc, hstep, if_true]
    exact ih (n * 10 + digitVal c) hrest hlt

theorem digits_of_parseUintDigits (cs : List Char) (n v : Nat)
    (h : parseUintDigits cs n = Except.ok v) : ∀ c ∈ cs, isDigit c = true := by
  induction cs generalizing n with
  | nil => simp
  | cons c cs ih =>
    unfold parseUintDigits at h
    by_cases hc : isDigit c = true
    · by_cases hstep : n * 10 + digitVal c < 18446744073709551616
      · simp only [hc, hstep, if_true] at h
        intro d hmem
        rcases List.mem_cons.mp hmem with rfl | hmem
        · exact hc
        · exact ih _ h d hmem
      · simp [hc, hstep] at h
    · simp [hc] at h

theorem isDigit_not_sign (c : Char) (hc : isDigit c = true) : ¬ (c = '+' ∨ c = '-') := by
  rintro (rfl | rfl) <;> simp [isDigit] at hc

/-- A non-empty string of decimal digits whose value fits a signed 64-bit integer parses to
that value. -/
theorem Atoi_of_decimal (s : String) (hd : IsDecimalDigits s.data)
    (hfit : decimalValue s.data < 9223372036854775808) :
    Atoi s = Except.ok (decimalValue s.data : Int) := by
  obtain ⟨hne, hall⟩ := hd
  unfold Atoi ParseInt
  cases hs : s.data with
  | nil => exact absurd hs hne
  | cons c cs =>
    rw [hs] at hall hfit
    have hc : isDigit c = true := hall c (List.mem_cons_self _ _)
    have hsign := isDigit_not_sign c hc
    have hminus : ¬ c = '-' := fun h => hsign (Or.inr h)
    have hplus : ¬ c = '+' := fun h => hsign (Or.inl h)
    have hparse : ParseUint (c :: cs) = Except.ok (decimalValue (c :: cs)) := by
      unfold ParseUint
      exact parseUintDigits_of_digits (c :: cs) 0 hall (by unfold decimalValue at hfit; omega)
    have hint : InInt64 (decimalValue (c :: cs) : Int) := by
      unfold InInt64
      constructor <;> omega
    have hge : ¬ (9223372036854775808 ≤ decimalValue (c :: cs)) := by omega
    simp [hplus, hminus, hparse, hge, toInt_of_inInt64 _ hint]

/-- Whatever `Atoi` accepts is numeric: an optional sign followed by decimal digits. -/
theorem isNumeric_of_Atoi (s : String) (v : Int) (h : Atoi s = Except.ok v) : IsNumeric s := by
  unfold Atoi at h
  cases hp : ParseInt s.data with
  | error e => simp [hp] at h
  | ok i64 =>
    unfold ParseInt at hp
    unfold IsNumeric
    cases hs : s.data with
    | nil => simp [hs] at hp
    | cons c cs =>
      simp only [hs] at hp ⊢
      cases hu : ParseUint (if c = '+' ∨ c = '-' then cs else c :: cs) with
      | error e => simp [hu] at hp
      | ok un =>
        by_cases hsign : c = '+' ∨ c = '-'
        · simp only [hsign, if_true] at hu ⊢
          unfold ParseUint at hu
          cases cs with
          | nil => simp at hu
          | cons d ds =>
            simp only at hu
            exact ⟨by simp, digits_of_parseUintDigits _ _ _ hu⟩
        · simp only [hsign, if_false] at hu ⊢
          unfold ParseUint at hu
          simp only at hu
          exact ⟨by simp, digits_of_parseUintDigits _ _ _ hu⟩

theorem Atoi_error_of_not_numeric (s : String) (h : ¬ IsNumeric s) :
    ∃ e, Atoi s = Except.error e := by
  cases ha : Atoi s with
  | error e => exact ⟨e, rfl⟩
  | ok v => exact absurd (isNumeric_of_Atoi s v ha) h

theorem appendEscapedRune_plain (table : Char → Bool) (c : Char) (hc : IsPlainChar c) :
    appendEscapedRune table c = [c] := by
  obtain ⟨h1, h2, h3, h4⟩ := hc
  have hq : ¬ (c.toNat = 34 ∨ c.toNat = 92) := by omega
  have hp : IsPrint table c = true := by
    unfold IsPrint
    have h255 : c.toNat ≤ 255 := by omega
    simp [h255, h1, h2]
  simp [appendEscapedRune, hq, hp]

theorem escape_plain (table : Char → Bool) (cs : List Char) (h : ∀ c ∈ cs, IsPlainChar c) :
    (cs.map (appendEscapedRune table)).flatten = cs := by
  induction cs with
  | nil => simp
  | cons c cs ih =>
    have hc := appendEscapedRune_plain table c (h c (List.mem_cons_self _ _))
    have hrest := ih (fun d hd => h d (List.mem_cons_of_mem _ hd))
    simp [hc, hrest]

theorem elementsAs_known (xs : List Int) : tfsdk.elementsAs (xs.map Attr.Value) = some xs := by
  induction xs with
  | nil => rfl
  | cons x xs ih => simp [tfsdk.elementsAs, ih]

theorem ValueAs_SetValueFrom (tags : Option (List Int)) (h : ∀ ts, tags = some ts → ts.Nodup) :
    tfsdk.ValueAs (types.SetValueFrom tags) = some tags := by
  cases tags with
  | none => rfl
  | some ts => simp [types.SetValueFrom, h ts rfl, tfsdk.ValueAs, elementsAs_known]

/-- A tag listed twice is rejected by the set type: the model then holds the unknown set and
`read` sends no tags. -/
theorem read_write_repeated_tag :
    (NotificationMailgun.write sampleFields Model.null
        { sampleNotification with Tags := some [1, 1] }).Tags = TfSet.Unknown ∧
    (NotificationMailgun.read sampleFields
        (NotificationMailgun.write sampleFields Model.null
          { sampleNotification with Tags := some [1, 1] })).Tags = none := by
  decide

/-! ## The claims on import by ID -/

/-- C6: for every identifier that is a non-empty string of decimal digits whose value `n`
fits the 64-bit platform integer, `ImportState` of `root_folder` and of
`notification_mailgun` leaves the diagnostics as they were (no error is added) and sets the
state attribute `id` to `n`, keeping every other attribute. -/
theorem ImportState_decimal_identifier (table : Char → Bool) (id : String)
    (hd : IsDecimalDigits id.data) (hfit : decimalValue id.data < 9223372036854775808)
    (rf : ImportStateResponse RootFolder) (mg : ImportStateResponse NotificationMailgun) :
    RootFolderResource.ImportState table { ID := id } rf =
      { Diagnostics := rf.Diagnostics,
        State := { Raw := some { rf.State.Raw.getD Model.null with
                                 ID := Attr.Value (decimalValue id.data : Int) } } } ∧
    NotificationMailgunResource.ImportState table { ID := id } mg =
      { Diagnostics := mg.Diagnostics,
        State := { Raw := some { mg.State.Raw.getD Model.null with
                                 ID := Attr.Value (decimalValue id.data : Int) } } } := by
  have ha := Atoi_of_decimal id hd hfit
  constructor
  · simp [RootFolderResource.ImportState, ha, State.SetAttribute, Model.setInt64, path.Root,
      Diagnostics.Append]
  · simp [NotificationMailgunResource.ImportState, ha, State.SetAttribute, Model.setInt64,
      path.Root, Diagnostics.Append]

theorem ImportState_decimal_identifier_witness :
    IsDecimalDigits "42".data ∧ decimalValue "42".data = 42 ∧
    RootFolderResource.ImportState sampleTable { ID := "42" }
        { Diagnostics := [], State := { Raw := none } } =
      { Diagnostics := [],
        State := { Raw := some { UnmappedFolders := TfSet.Null, Path := Attr.Null,
                                 ID := Attr.Value 42, Accessible := Attr.Null } } } ∧
    (NotificationMailgunResource.ImportState sampleTable { ID := "42" }
        { Diagnostics := [], State := { Raw := none } }).State.Raw =
      some { (Model.null : NotificationMailgun) with ID := Attr.Value 42 } :=
  ⟨by decide, by decide,
    (ImportState_decimal_identifier sampleTable "42" (by decide) (by decide)
      { Diagnostics := [], State := { Raw := none } }
      { Diagnostics := [], State := { Raw := none } }).1,
    congrArg (fun r => r.State.Raw)
      (ImportState_decimal_identifier sampleTable "42" (by decide) (by decide)
        { Diagnostics := [], State := { Raw := none } }
        { Diagnostics := [], State := { Raw := none } }).2⟩

/-- C7: for every identifier that is not numeric (not an optional sign followed by decimal
digits, such as `abc` or the empty string), `ImportState` of `root_folder` and of
`notification_mailgun` leaves the state as it was and adds exactly one diagnostic: the
error titled `tools.UnexpectedImportIdentifier` whose detail is
`Expected import identifier with format: ID. Got: ` followed by the identifier quoted by
`%q`; when the identifier has only plain characters that is the identifier between double
quotes.  The response is one that does not hold this very diagnostic already. -/
theorem ImportState_not_numeric (table : Char → Bool) (id : String) (h : ¬ IsNumeric id)
    (rf : ImportStateResponse RootFolder) (mg : ImportStateResponse NotificationMailgun)
    (hrf : NewErrorDiagnostic tools.UnexpectedImportIdentifier
      ("Expected import identifier with format: ID. Got: " ++ Quote table id) ∉ rf.Diagnostics)
    (hmg : NewErrorDiagnostic tools.UnexpectedImportIdentifier
      ("Expected import identifier with format: ID. Got: " ++ Quote table id) ∉ mg.Diagnostics) :
    RootFolderResource.ImportState table { ID := id } rf =
      { Diagnostics := rf.Diagnostics ++ [NewErrorDiagnostic tools.UnexpectedImportIdentifier
          ("Expected import identifier with format: ID. Got: " ++ Quote table id)],
        State := rf.State } ∧
    NotificationMailgunResource.ImportState table { ID := id } mg =
      { Diagnostics := mg.Diagnostics ++ [NewErrorDiagnostic tools.UnexpectedImportIdentifier
          ("Expected import identifier with format: ID. Got: " ++ Quote table id)],
        State := mg.State } ∧
    ((∀ c ∈ id.data, IsPlainChar c) →
      Quote table id = String.mk ([Char.ofNat 34] ++ id.data ++ [Char.ofNat 34])) := by
  obtain ⟨e, he⟩ := Atoi_error_of_not_numeric id h
  refine ⟨?_, ?_, ?_⟩
  · simp only [RootFolderResource.ImportState, he]
    rw [Diagnostics.AddError_fresh _ _ _ hrf]
  · simp only [NotificationMailgunResource.ImportState, he]
    rw [Diagnostics.AddError_fresh _ _ _ hmg]
  · intro hplain
    unfold Quote
    rw [escape_plain table id.data hplain]

theorem ImportState_not_numeric_witness :
    ¬ IsNumeric "abc" ∧ ¬ IsNumeric "" ∧
    RootFolderResource.ImportState sampleTable { ID := "abc" }
        { Diagnostics := [], State := { Raw := none } } =
      { Diagnostics := [NewErrorDiagnostic tools.UnexpectedImportIdentifier
          ("Expected import identifier with format: ID. Got: " ++ Quote sampleTable "abc")],
        State := { Raw := none } } ∧
    Quote sampleTable "abc" = String.mk [Char.ofNat 34, 'a', 'b', 'c', Char.ofNat 34] ∧
    NotificationMailgunResource.ImportState sampleTable { ID := "" }
        { Diagnostics := [], State := { Raw := none } } =
      { Diagnostics := [NewErrorDiagnostic tools.UnexpectedImportIdentifier
          ("Expected import identifier with format: ID. Got: " ++ Quote sampleTable "")],
        State := { Raw := none } } :=
  ⟨by decide, by decide,
    (ImportState_not_numeric sampleTable "abc" (by decide)
      { Diagnostics := [], State := { Raw := none } }
      { Diagnostics := [], State := { Raw := none } } (by simp) (by simp)).1,
    (ImportState_not_numeric sampleTable "abc" (by decide)
      { Diagnostics := [], State := { Raw := none } }
      { Diagnostics := [], State := { Raw := none } } (by simp) (by simp)).2.2 (by decide),
    (ImportState_not_numeric sampleTable "" (by decide)
      { Diagnostics := [], State := { Raw := none } }
      { Diagnostics := [], State := { Raw := none } } (by simp) (by simp)).2.1⟩

/-! ## The claims on the conversions of `NotificationMailgun` -/

theorem NotificationMailgun.toNotification_fromNotification (m : NotificationMailgun)
    (g : Notification) : (m.fromNotification g).toNotification = g := by
  cases g
  rfl

theorem NotificationMailgun.write_eq (F : NotificationFields) (m : NotificationMailgun)
    (x : NotificationOutput) :
    m.write F x = m.fromNotification (F.writeFields x.toGeneric x.Fields) := rfl

/-- C9: for every `NotificationMailgun` model `n` and every starting model `m`,
`fromNotification` applied to `m` with `toNotification(n)` makes `m` equal to `n` in all 17
fields: the conversion through the generic `Notification` loses no field of the variant. -/
theorem NotificationMailgun.fromNotification_toNotification (n m : NotificationMailgun) :
    m.fromNotification n.toNotification = n := by
  cases n
  rfl

/-- C10: for every `NotificationMailgun` model, whatever its field values (null and unknown
ones included) and whatever the settings converters, `read` returns a request whose
`Implementation` is `Mailgun` and whose `ConfigContract` is `MailgunSettings`. -/
theorem NotificationMailgun.read_fixed_constants (F : NotificationFields)
    (n : NotificationMailgun) :
    (NotificationMailgun.read F n).Implementation = "Mailgun" ∧
    (NotificationMailgun.read F n).ConfigContract = "MailgunSettings" :=
  ⟨rfl, rfl⟩

/-! ## Outcomes of the handlers -/

theorem Diagnostics.not_mem_of_no_error (diags : Diagnostics) (summary detail : String)
    (h : Diagnostics.HasError diags = false) : NewErrorDiagnostic summary detail ∉ diags := by
  intro hmem
  have : Diagnostics.HasError diags = true := by
    unfold Diagnostics.HasError
    rw [List.any_eq_true]
    exact ⟨_, hmem, by simp [NewErrorDiagnostic]⟩
  rw [h] at this
  exact Bool.noConfusion this

theorem Diagnostics.AddError_no_error (diags : Diagnostics) (summary detail : String)
    (h : Diagnostics.HasError diags = false) :
    Diagnostics.AddError diags summary detail = diags ++ [NewErrorDiagnostic summary detail] :=
  Diagnostics.AddError_fresh diags summary detail
    (Diagnostics.not_mem_of_no_error diags summary detail h)

/-- `RootFolder.write` takes the access flag, the ID and the path from the API object and
always leaves the empty set in `unmapped_folders`: the conversion of the unmapped folders is
given a copy of the attribute as target, so nothing is stored. -/
theorem RootFolder.write_fields (r : RootFolder) (x : sonarr.RootFolder) :
    r.write x = { Accessible := Attr.Value x.Accessible, ID := Attr.Value x.ID,
                  Path := Attr.Value x.Path, UnmappedFolders := TfSet.Value [] } := by
  unfold RootFolder.write tfsdk.ValueFrom
  by_cases hn : (List.map (fun f => Sonarr.Path.write { Name := Attr.Null, Path := Attr.Null } f)
      x.UnmappedFolders).Nodup
  · simp [hn, types.BoolValue, types.Int64Value, types.StringValue, types.SetValueMust]
  · simp [hn, types.BoolValue, types.Int64Value, types.StringValue, types.SetValueMust]

theorem RootFolder.folder_write_storable (r : RootFolder) (x : sonarr.RootFolder) :
    Storable.storable (r.write x) = true := by
  rw [RootFolder.write_fields]
  rfl

theorem RootFolderResource.folder_Create_error (client : sonarr.Sonarr) (folder : RootFolder)
    (resp : CreateResponse RootFolder) (err : String)
    (hresp : Diagnostics.HasError resp.Diagnostics = false)
    (hcall : client.AddRootFolderContext
      { Path := folder.Path.ValueString, Accessible := false, ID := 0, FreeSpace := 0,
        UnmappedFolders := [] } = Except.error err) :
    RootFolderResource.Create client { Plan := { Raw := some folder } } resp =
      some { resp := { State := resp.State,
                       Diagnostics := resp.Diagnostics ++ [NewErrorDiagnostic tools.ClientError
                         ("Unable to create root_folder, got error: " ++ err)] },
             calls := [ClientCall.AddRootFolder
               { Path := folder.Path.ValueString, Accessible := false, ID := 0, FreeSpace := 0,
                 UnmappedFolders := [] }] } := by
  simp [RootFolderResource.Create, Plan.Get, Diagnostics.Append, hresp, hcall,
    Diagnostics.AddError_no_error _ _ _ hresp, rootFolderResourceName]

theorem RootFolderResource.folder_Create_ok (client : sonarr.Sonarr) (folder : RootFolder)
    (resp : CreateResponse RootFolder) (response : sonarr.RootFolder)
    (hresp : Diagnostics.HasError resp.Diagnostics = false)
    (hcall : client.AddRootFolderContext
      { Path := folder.Path.ValueString, Accessible := false, ID := 0, FreeSpace := 0,
        UnmappedFolders := [] } = Except.ok response) :
    RootFolderResource.Create client { Plan := { Raw := some folder } } resp =
      some { resp := { State := { Raw := some (folder.write response) },
                       Diagnostics := resp.Diagnostics },
             calls := [ClientCall.AddRootFolder
               { Path := folder.Path.ValueString, Accessible := false, ID := 0, FreeSpace := 0,
                 UnmappedFolders := [] }] } := by
  simp [RootFolderResource.Create, Plan.Get, Diagnostics.Append, hresp, hcall, State.Set,
    RootFolder.folder_write_storable]

theorem RootFolderResource.folder_Read_error (client : sonarr.Sonarr) (folder : RootFolder)
    (resp : ReadResponse RootFolder) (err : String)
    (hresp : Diagnostics.HasError resp.Diagnostics = false)
    (hcall : client.GetRootFolderContext folder.ID.ValueInt64 = Except.error err) :
    RootFolderResource.Read client { State := { Raw := some folder } } resp =
      some { resp := { State := resp.State,
                       Diagnostics := resp.Diagnostics ++ [NewErrorDiagnostic tools.ClientError
                         ("Unable to read root_folder, got error: " ++ err)] },
             calls := [ClientCall.GetRootFolder folder.ID.ValueInt64] } := by
  simp [RootFolderResource.Read, State.Get, Diagnostics.Append, hresp, hcall,
    Diagnostics.AddError_no_error _ _ _ hresp, rootFolderResourceName]

theorem RootFolderResource.folder_Read_ok (client : sonarr.Sonarr) (folder : RootFolder)
    (resp : ReadResponse RootFolder) (response : sonarr.RootFolder)
    (hresp : Diagnostics.HasError resp.Diagnostics = false)
    (hcall : client.GetRootFolderContext folder.ID.ValueInt64 = Except.ok response) :
    RootFolderResource.Read client { State := { Raw := some folder } } resp =
      some { resp := { State := { Raw := some (folder.write response) },
                       Diagnostics := resp.Diagnostics },
             calls := [ClientCall.GetRootFolder folder.ID.ValueInt64] } := by
  simp [RootFolderResource.Read, State.Get, Diagnostics.Append, hresp, hcall, State.Set,
    RootFolder.folder_write_storable]

theorem RootFolderResource.folder_Delete_error (client : sonarr.Sonarr) (folder : RootFolder)
    (resp : DeleteResponse RootFolder) (err : String)
    (hresp : Diagnostics.HasError resp.Diagnostics = false)
    (hcall : client.DeleteRootFolderContext folder.ID.ValueInt64 = some err) :
    RootFolderResource.Delete client { State := { Raw := some folder } } resp =
      some { resp := { State := resp.State,
                       Diagnostics := resp.Diagnostics ++ [NewErrorDiagnostic tools.ClientError
                         ("Unable to read root_folder, got error: " ++ err)] },
             calls := [ClientCall.DeleteRootFolder folder.ID.ValueInt64] } := by
  simp [RootFolderResource.Delete, State.Get, Diagnostics.Append, hresp, hcall,
    Diagnostics.AddError_no_error _ _ _ hresp, rootFolderResourceName]

theorem RootFolderResource.folder_Delete_ok (client : sonarr.Sonarr) (folder : RootFolder)
    (resp : DeleteResponse RootFolder)
    (hresp : Diagnostics.HasError resp.Diagnostics = false)
    (hcall : client.DeleteRootFolderContext folder.ID.ValueInt64 = none) :
    RootFolderResource.Delete client { State := { Raw := some folder } } resp =
      some { resp := { State := { Raw := none }, Diagnostics := resp.Diagnostics },
             calls := [ClientCall.DeleteRootFolder folder.ID.ValueInt64] } := by
  simp [RootFolderResource.Delete, State.Get, Diagnostics.Append, hresp, hcall,
    State.RemoveResource]

theorem NotificationMailgunResource.mailgun_Create_error (F : NotificationFields)
    (client : sonarr.Sonarr) (plan : NotificationMailgun)
    (resp : CreateResponse NotificationMailgun) (err : String)
    (hresp : Diagnostics.HasError resp.Diagnostics = false)
    (hcall : client.AddNotificationContext (plan.read F) = Except.error err) :
    NotificationMailgunResource.Create F client { Plan := { Raw := some plan } } resp =
      some { resp := { State := resp.State,
                       Diagnostics := resp.Diagnostics ++ [NewErrorDiagnostic tools.ClientError
                         ("Unable to create notification_mailgun, got error: " ++ err)] },
             calls := [ClientCall.AddNotification (plan.read F)] } := by
  simp [NotificationMailgunResource.Create, Plan.Get, Diagnostics.Append, hresp, hcall,
    Diagnostics.AddError_no_error _ _ _ hresp, notificationMailgunResourceName]

theorem NotificationMailgunResource.mailgun_Create_ok (F : NotificationFields)
    (client : sonarr.Sonarr) (plan : NotificationMailgun)
    (resp : CreateResponse NotificationMailgun) (response : NotificationOutput)
    (hresp : Diagnostics.HasError resp.Diagnostics = false)
    (hcall : client.AddNotificationContext (plan.read F) = Except.ok response)
    (hstore : Storable.storable (plan.write F response) = true) :
    NotificationMailgunResource.Create F client { Plan := { Raw := some plan } } resp =
      some { resp := { State := { Raw := some (plan.write F response) },
                       Diagnostics := resp.Diagnostics },
             calls := [ClientCall.AddNotification (plan.read F)] } := by
  simp [NotificationMailgunResource.Create, Plan.Get, Diagnostics.Append, hresp, hcall,
    State.Set, hstore]

theorem NotificationMailgunResource.mailgun_Read_error (F : NotificationFields)
    (client : sonarr.Sonarr) (notification : NotificationMailgun)
    (resp : ReadResponse NotificationMailgun) (err : String)
    (hresp : Diagnostics.HasError resp.Diagnostics = false)
    (hcall : client.GetNotificationContext (toInt notification.ID.ValueInt64) =
      Except.error err) :
    NotificationMailgunResource.Read F client { State := { Raw := some notification } } resp =
      some { resp := { State := resp.State,
                       Diagnostics := resp.Diagnostics ++ [NewErrorDiagnostic tools.ClientError
                         ("Unable to read notification_mailgun, got error: " ++ err)] },
             calls := [ClientCall.GetNotification (toInt notification.ID.ValueInt64)] } := by
  simp [NotificationMailgunResource.Read, State.Get, Diagnostics.Append, hresp, hcall,
    Diagnostics.AddError_no_error _ _ _ hresp, notificationMailgunResourceName]

theorem NotificationMailgunResource.mailgun_Update_error (F : NotificationFields)
    (client : sonarr.Sonarr) (plan : NotificationMailgun) (prior : State NotificationMailgun)
    (resp : UpdateResponse NotificationMailgun) (err : String)
    (hresp : Diagnostics.HasError resp.Diagnostics = false)
    (hcall : client.UpdateNotificationContext (plan.read F) = Except.error err) :
    NotificationMailgunResource.Update F client
        { Plan := { Raw := some plan }, State := prior } resp =
      some { resp := { State := resp.State,
                       Diagnostics := resp.Diagnostics ++ [NewErrorDiagnostic tools.ClientError
                         ("Unable to update notification_mailgun, got error: " ++ err)] },
             calls := [ClientCall.UpdateNotification (plan.read F)] } := by
  simp [NotificationMailgunResource.Update, Plan.Get, Diagnostics.Append, hresp, hcall,
    Diagnostics.AddError_no_error _ _ _ hresp, notificationMailgunResourceName]

theorem NotificationMailgunResource.mailgun_Update_ok (F : NotificationFields)
    (client : sonarr.Sonarr) (plan : NotificationMailgun) (prior : State NotificationMailgun)
    (resp : UpdateResponse NotificationMailgun) (response : NotificationOutput)
    (hresp : Diagnostics.HasError resp.Diagnostics = false)
    (hcall : client.UpdateNotificationContext (plan.read F) = Except.ok response)
    (hstore : Storable.storable (plan.write F response) = true) :
    NotificationMailgunResource.Update F client
        { Plan := { Raw := some plan }, State := prior } resp =
      some { resp := { State := { Raw := some (plan.write F response) },
                       Diagnostics := resp.Diagnostics },
             calls := [ClientCall.UpdateNotification (plan.read F)] } := by
  simp [NotificationMailgunResource.Update, Plan.Get, Diagnostics.Append, hresp, hcall,
    State.Set, hstore]

theorem NotificationMailgunResource.mailgun_Delete_error (client : sonarr.Sonarr)
    (notification : NotificationMailgun) (resp : DeleteResponse NotificationMailgun)
    (err : String) (hresp : Diagnostics.HasError resp.Diagnostics = false)
    (hcall : client.DeleteNotificationContext notification.ID.ValueInt64 = some err) :
    NotificationMailgunResource.Delete client { State := { Raw := some notification } } resp =
      some { resp := { State := resp.State,
                       Diagnostics := resp.Diagnostics ++ [NewErrorDiagnostic tools.ClientError
                         ("Unable to read notification_mailgun, got error: " ++ err)] },
             calls := [ClientCall.DeleteNotification notification.ID.ValueInt64] } := by
  simp [NotificationMailgunResource.Delete, State.Get, Diagnostics.Append, hresp, hcall,
    Diagnostics.AddError_no_error _ _ _ hresp, notificationMailgunResourceName]

theorem NotificationMailgunResource.mailgun_Delete_ok (client : sonarr.Sonarr)
    (notification : NotificationMailgun) (resp : DeleteResponse NotificationMailgun)
    (hresp : Diagnostics.HasError resp.Diagnostics = false)
    (hcall : client.DeleteNotificationContext notification.ID.ValueInt64 = none) :
    NotificationMailgunResource.Delete client { State := { Raw := some notification } } resp =
      some { resp := { State := { Raw := none }, Diagnostics := resp.Diagnostics },
             calls := [ClientCall.DeleteNotification notification.ID.ValueInt64] } := by
  simp [NotificationMailgunResource.Delete, State.Get, Diagnostics.Append, hresp, hcall,
    State.RemoveResource]

/-! ## Properties of the model writers -/

theorem Attr.ValueBool_of_known (a : TfBool) (h : a.IsKnown = true) :
    types.BoolValue a.ValueBool = a := by
  cases a with
  | Value v => rfl
  | Null => simp [Attr.IsKnown] at h
  | Unknown => simp [Attr.IsKnown] at h

theorem Attr.ValueString_of_known (a : TfString) (h : a.IsKnown = true) :
    types.StringValue a.ValueString = a := by
  cases a with
  | Value v => rfl
  | Null => simp [Attr.IsKnown] at h
  | Unknown => simp [Attr.IsKnown] at h

/-- What `write` puts in the event flags, the ID and the name of the model, when the
settings converter fills settings attributes only. -/
theorem NotificationMailgun.write_base (F : NotificationFields) (hF : F.WritesSettingsOnly)
    (n : NotificationMailgun) (x : NotificationOutput) :
    (n.write F x).OnGrab = types.BoolValue x.OnGrab ∧
    (n.write F x).OnDownload = types.BoolValue x.OnDownload ∧
    (n.write F x).OnUpgrade = types.BoolValue x.OnUpgrade ∧
    (n.write F x).OnSeriesDelete = types.BoolValue x.OnSeriesDelete ∧
    (n.write F x).OnEpisodeFileDelete = types.BoolValue x.OnEpisodeFileDelete ∧
    (n.write F x).OnEpisodeFileDeleteForUpgrade = types.BoolValue x.OnEpisodeFileDeleteForUpgrade ∧
    (n.write F x).OnHealthIssue = types.BoolValue x.OnHealthIssue ∧
    (n.write F x).OnApplicationUpdate = types.BoolValue x.OnApplicationUpdate ∧
    (n.write F x).IncludeHealthWarnings = types.BoolValue x.IncludeHealthWarnings ∧
    (n.write F x).ID = types.Int64Value x.ID ∧
    (n.write F x).Name = types.StringValue x.Name := by
  simp only [NotificationMailgun.write, NotificationMailgun.fromNotification]
  obtain ⟨h1, h2, h3, h4, h5, h6, h7, h8, h9, h10, h11, _⟩ := hF
    { OnGrab := types.BoolValue x.OnGrab,
      OnDownload := types.BoolValue x.OnDownload,
      OnUpgrade := types.BoolValue x.OnUpgrade,
      OnSeriesDelete := types.BoolValue x.OnSeriesDelete,
      OnEpisodeFileDelete := types.BoolValue x.OnEpisodeFileDelete,
      OnEpisodeFileDeleteForUpgrade := types.BoolValue x.OnEpisodeFileDeleteForUpgrade,
      OnHealthIssue := types.BoolValue x.OnHealthIssue,
      OnApplicationUpdate := types.BoolValue x.OnApplicationUpdate,
      IncludeHealthWarnings := types.BoolValue x.IncludeHealthWarnings,
      ID := types.Int64Value x.ID,
      Name := types.StringValue x.Name,
      Tags := types.SetValueFrom x.Tags, Recipients := TfSet.Zero, SenderDomain := Attr.Null,
      APIKey := Attr.Null, UseEuEndpoint := Attr.Null, From := Attr.Null } x.Fields
  exact ⟨h1, h2, h3, h4, h5, h6, h7, h8, h9, h10, h11⟩

/-- Writing an echo of the request read from a plan whose configured attributes are known
gives back those attributes. -/
theorem NotificationMailgun.write_echo (F : NotificationFields) (hF : F.WritesSettingsOnly)
    (plan : NotificationMailgun) (hk : plan.ConfiguredKnown) (response : NotificationOutput)
    (he : response.Echoes (plan.read F)) :
    (plan.write F response).SameConfigured plan ∧
    (plan.write F response).ID = Attr.Value response.ID := by
  obtain ⟨w1, w2, w3, w4, w5, w6, w7, w8, w9, w10, w11⟩ :=
    NotificationMailgun.write_base F hF plan response
  obtain ⟨k1, k2, k3, k4, k5, k6, k7, k8, k9, k10⟩ := hk
  obtain ⟨e1, e2, e3, e4, e5, e6, e7, e8, e9, e10⟩ := he
  simp only [NotificationMailgun.read] at e1 e2 e3 e4 e5 e6 e7 e8 e9 e10
  refine ⟨⟨?_, ?_, ?_, ?_, ?_, ?_, ?_, ?_, ?_, ?_⟩, w10⟩
  · rw [w1, e1]; exact Attr.ValueBool_of_known _ k1
  · rw [w2, e2]; exact Attr.ValueBool_of_known _ k2
  · rw [w3, e3]; exact Attr.ValueBool_of_known _ k3
  · rw [w4, e4]; exact Attr.ValueBool_of_known _ k4
  · rw [w5, e5]; exact Attr.ValueBool_of_known _ k5
  · rw [w6, e6]; exact Attr.ValueBool_of_known _ k6
  · rw [w7, e7]; exact Attr.ValueBool_of_known _ k7
  · rw [w8, e8]; exact Attr.ValueBool_of_known _ k8
  · rw [w9, e9]; exact Attr.ValueBool_of_known _ k9
  · rw [w11, e10]; exact Attr.ValueString_of_known _ k10

/-! ## The claims on the resource handlers -/

theorem types.SetValueFrom_not_zero (tags : Option (List Int)) :
    (types.SetValueFrom tags).IsZero = false := by
  cases tags with
  | none => rfl
  | some ts =>
    unfold types.SetValueFrom
    by_cases h : ts.Nodup
    · simp [h, TfSet.IsZero]
    · simp [h, TfSet.IsZero]

/-- The model that `write` gives can be stored exactly when the recipients were filled: the
tags always carry their element type. -/
theorem NotificationMailgun.mailgun_write_storable (F : NotificationFields) (hF : F.WritesSettingsOnly)
    (n : NotificationMailgun) (x : NotificationOutput) :
    Storable.storable (n.write F x) = !(F.writeFields x.toGeneric x.Fields).Recipients.IsZero := by
  obtain ⟨_, _, _, _, _, _, _, _, _, _, _, h12⟩ := hF x.toGeneric x.Fields
  rw [NotificationMailgun.write_eq]
  show (!(F.writeFields x.toGeneric x.Fields).Tags.IsZero &&
    !(F.writeFields x.toGeneric x.Fields).Recipients.IsZero) = _
  rw [h12]
  show (!(types.SetValueFrom x.Tags).IsZero && _) = _
  rw [types.SetValueFrom_not_zero]
  rfl

theorem NotificationMailgunResource.mailgun_Create_unstored (F : NotificationFields)
    (client : sonarr.Sonarr) (plan : NotificationMailgun)
    (resp : CreateResponse NotificationMailgun) (response : NotificationOutput)
    (hresp : Diagnostics.HasError resp.Diagnostics = false)
    (hcall : client.AddNotificationContext (plan.read F) = Except.ok response)
    (hstore : Storable.storable (plan.write F response) = false) :
    NotificationMailgunResource.Create F client { Plan := { Raw := some plan } } resp = none := by
  simp [NotificationMailgunResource.Create, Plan.Get, Diagnostics.Append, hresp, hcall,
    State.Set, hstore]

theorem NotificationMailgunResource.mailgun_Update_unstored (F : NotificationFields)
    (client : sonarr.Sonarr) (plan : NotificationMailgun) (prior : State NotificationMailgun)
    (resp : UpdateResponse NotificationMailgun) (response : NotificationOutput)
    (hresp : Diagnostics.HasError resp.Diagnostics = false)
    (hcall : client.UpdateNotificationContext (plan.read F) = Except.ok response)
    (hstore : Storable.storable (plan.write F response) = false) :
    NotificationMailgunResource.Update F client
        { Plan := { Raw := some plan }, State := prior } resp = none := by
  simp [NotificationMailgunResource.Update, Plan.Get, Diagnostics.Append, hresp, hcall,
    State.Set, hstore]

/-- C12, as the code has it: for every planned path `p`, after a successful `root_folder`
Create followed by a successful Read, the request sent by Create carries `p`, and the path
held in state is the path of the API object that the read call returned; it equals `p` when
that object carries `p`.  The state is written from the API responses, not from the
configuration. -/
theorem RootFolderResource.Create_Read_path (create read : sonarr.Sonarr) (plan : RootFolder)
    (p : String) (hp : plan.Path = Attr.Value p) (cresp : CreateResponse RootFolder)
    (rdiags : Diagnostics) (hc : Diagnostics.HasError cresp.Diagnostics = false)
    (hr : Diagnostics.HasError rdiags = false) (added got : sonarr.RootFolder)
    (hadd : create.AddRootFolderContext
      { Path := p, Accessible := false, ID := 0, FreeSpace := 0, UnmappedFolders := [] } =
        Except.ok added)
    (hget : read.GetRootFolderContext added.ID = Except.ok got) :
    ∃ (created : Outcome (CreateResponse RootFolder)) (m : RootFolder),
      RootFolderResource.Create create { Plan := { Raw := some plan } } cresp = some created ∧
      created.calls = [ClientCall.AddRootFolder
        { Path := p, Accessible := false, ID := 0, FreeSpace := 0, UnmappedFolders := [] }] ∧
      RootFolderResource.Read read { State := created.resp.State }
          { State := created.resp.State, Diagnostics := rdiags } =
        some { resp := { State := { Raw := some m }, Diagnostics := rdiags },
               calls := [ClientCall.GetRootFolder added.ID] } ∧
      m.Path = Attr.Value got.Path ∧ (got.Path = p → m.Path = Attr.Value p) := by
  have hreq : plan.Path.ValueString = p := by rw [hp]; rfl
  have hcreate := RootFolderResource.folder_Create_ok create plan cresp added hc (by rw [hreq]; exact hadd)
  rw [hreq] at hcreate
  have hid : (plan.write added).ID.ValueInt64 = added.ID := by
    rw [RootFolder.write_fields]; rfl
  have hread := RootFolderResource.folder_Read_ok read (plan.write added)
    { State := { Raw := some (plan.write added) }, Diagnostics := rdiags } got hr
    (by rw [hid]; exact hget)
  rw [hid] at hread
  refine ⟨_, (plan.write added).write got, hcreate, rfl, hread, ?_, ?_⟩
  · rw [RootFolder.write_fields]
  · intro h
    rw [RootFolder.write_fields, h]

theorem RootFolderResource.Create_Read_path_witness :
    ∃ (created : Outcome (CreateResponse RootFolder)) (m : RootFolder),
      RootFolderResource.Create plainClient { Plan := { Raw := some sampleFolderPlan } }
          { State := { Raw := none }, Diagnostics := [] } = some created ∧
      created.calls = [ClientCall.AddRootFolder
        { Path := "/tv", Accessible := false, ID := 0, FreeSpace := 0,
          UnmappedFolders := [] }] ∧
      RootFolderResource.Read plainClient { State := created.resp.State }
          { State := created.resp.State, Diagnostics := [] } =
        some { resp := { State := { Raw := some m }, Diagnostics := [] },
               calls := [ClientCall.GetRootFolder 7] } ∧
      m.Path = Attr.Value "/tv" ∧ ("/tv" = "/tv" → m.Path = Attr.Value "/tv") :=
  RootFolderResource.Create_Read_path plainClient plainClient sampleFolderPlan "/tv" rfl
    { State := { Raw := none }, Diagnostics := [] } [] rfl rfl
    { Accessible := true, ID := 7, FreeSpace := 1000, Path := "/tv", UnmappedFolders := [] }
    { Accessible := true, ID := 7, FreeSpace := 1000, Path := "/tv", UnmappedFolders := [] }
    rfl rfl

/-- C12 as stated fails: with the planned path `/tv` and a remote that stores and returns
`/tv/`, Create and Read both succeed and the path held in state is `/tv/`, not the planned
path. -/
theorem RootFolderResource.state_path_not_planned :
    sampleFolderPlan.Path = Attr.Value "/tv" ∧
    ∃ (created : Outcome (CreateResponse RootFolder)) (m : RootFolder),
      RootFolderResource.Create echoClient { Plan := { Raw := some sampleFolderPlan } }
          { State := { Raw := none }, Diagnostics := [] } = some created ∧
      created.resp.Diagnostics = [] ∧
      RootFolderResource.Read echoClient { State := created.resp.State }
          { State := created.resp.State, Diagnostics := [] } =
        some { resp := { State := { Raw := some m }, Diagnostics := [] },
               calls := [ClientCall.GetRootFolder 7] } ∧
      m.Path = Attr.Value "/tv/" ∧ m.Path ≠ sampleFolderPlan.Path := by
  refine ⟨rfl, _, (sampleFolderPlan.write
      { Accessible := true, ID := 7, FreeSpace := 1000, Path := "/tv/",
        UnmappedFolders := [{ Name := "old", Path := "/tv/old" }] }).write
      { Accessible := true, ID := 7, FreeSpace := 1000, Path := "/tv/",
        UnmappedFolders := [{ Name := "old", Path := "/tv/old" }] },
    RootFolderResource.folder_Create_ok echoClient sampleFolderPlan
      { State := { Raw := none }, Diagnostics := [] } _ rfl rfl, rfl, ?_, ?_, ?_⟩
  · exact RootFolderResource.folder_Read_ok echoClient _
      { State := { Raw := some _ }, Diagnostics := [] } _ rfl rfl
  · rw [RootFolder.write_fields]
  · rw [RootFolder.write_fields]
    decide

/-- C13: `RootFolder.write` does not carry the unmapped folders of the API object into the
model.  For an API root folder with one unmapped folder (`old` at `/tv/old`) the attribute
`unmapped_folders` of the written model is the empty set. -/
theorem RootFolder.write_drops_unmapped_folders :
    (sampleFolderPlan.write
        { Accessible := true, ID := 7, FreeSpace := 1000, Path := "/tv",
          UnmappedFolders := [{ Name := "old", Path := "/tv/old" }] }).UnmappedFolders =
      TfSet.Value [] ∧
    (sampleFolderPlan.write
        { Accessible := true, ID := 7, FreeSpace := 1000, Path := "/tv",
          UnmappedFolders := [{ Name := "old", Path := "/tv/old" }] }).UnmappedFolders ≠
      TfSet.Value [Attr.Value { Name := Attr.Value "old", Path := Attr.Value "/tv/old" }] := by
  rw [RootFolder.write_fields]
  exact ⟨rfl, by decide⟩

/-- C14: Delete of `root_folder` and of `notification_mailgun` makes the remote delete call
for the ID held in state, and removes the resource from the local state if and only if that
call succeeded: on success the state is null and the diagnostics are as before; on failure
the state is left as it was and exactly one diagnostic, a client error, is added.  The
response handed to the handler holds the prior state and no error. -/
theorem Delete_removes_iff_remote_succeeded (client : sonarr.Sonarr) (folder : RootFolder)
    (notification : NotificationMailgun) (fresp : DeleteResponse RootFolder)
    (nresp : DeleteResponse NotificationMailgun)
    (hf : Diagnostics.HasError fresp.Diagnostics = false)
    (hn : Diagnostics.HasError nresp.Diagnostics = false)
    (hfs : fresp.State.Raw ≠ none) (hns : nresp.State.Raw ≠ none) :
    (∃ out, RootFolderResource.Delete client { State := { Raw := some folder } } fresp =
        some out ∧
      out.calls = [ClientCall.DeleteRootFolder folder.ID.ValueInt64] ∧
      (out.resp.State.Raw = none ↔
        client.DeleteRootFolderContext folder.ID.ValueInt64 = none) ∧
      (client.DeleteRootFolderContext folder.ID.ValueInt64 = none →
        out.resp.Diagnostics = fresp.Diagnostics) ∧
      (client.DeleteRootFolderContext folder.ID.ValueInt64 ≠ none →
        out.resp.State = fresp.State ∧
        ∃ detail, out.resp.Diagnostics =
          fresp.Diagnostics ++ [NewErrorDiagnostic tools.ClientError detail])) ∧
    (∃ out, NotificationMailgunResource.Delete client
          { State := { Raw := some notification } } nresp = some out ∧
      out.calls = [ClientCall.DeleteNotification notification.ID.ValueInt64] ∧
      (out.resp.State.Raw = none ↔
        client.DeleteNotificationContext notification.ID.ValueInt64 = none) ∧
      (client.DeleteNotificationContext notification.ID.ValueInt64 = none →
        out.resp.Diagnostics = nresp.Diagnostics) ∧
      (client.DeleteNotificationContext notification.ID.ValueInt64 ≠ none →
        out.resp.State = nresp.State ∧
        ∃ detail, out.resp.Diagnostics =
          nresp.Diagnostics ++ [NewErrorDiagnostic tools.ClientError detail])) := by
  constructor
  · cases hcall : client.DeleteRootFolderContext folder.ID.ValueInt64 with
    | none =>
      exact ⟨_, RootFolderResource.folder_Delete_ok client folder fresp hf hcall, rfl,
        ⟨fun _ => rfl, fun _ => rfl⟩, fun _ => rfl, fun h => absurd rfl h⟩
    | some err =>
      refine ⟨_, RootFolderResource.folder_Delete_error client folder fresp err hf hcall, rfl,
        ⟨fun h => absurd h hfs, fun h => Option.noConfusion h⟩,
        fun h => Option.noConfusion h, fun _ => ⟨rfl, _, rfl⟩⟩
  · cases hcall : client.DeleteNotificationContext notification.ID.ValueInt64 with
    | none =>
      exact ⟨_, NotificationMailgunResource.mailgun_Delete_ok client notification nresp hn hcall, rfl,
        ⟨fun _ => rfl, fun _ => rfl⟩, fun _ => rfl, fun h => absurd rfl h⟩
    | some err =>
      refine ⟨_, NotificationMailgunResource.mailgun_Delete_error client notification nresp err hn
          hcall, rfl,
        ⟨fun h => absurd h hns, fun h => Option.noConfusion h⟩,
        fun h => Option.noConfusion h, fun _ => ⟨rfl, _, rfl⟩⟩

theorem Delete_removes_iff_remote_succeeded_witness :
    (∃ out, RootFolderResource.Delete echoClient { State := { Raw := some sampleFolderPlan } }
          { State := { Raw := some sampleFolderPlan }, Diagnostics := [] } = some out ∧
      out.calls = [ClientCall.DeleteRootFolder 0] ∧
      (out.resp.State.Raw = none ↔ echoClient.DeleteRootFolderContext 0 = none) ∧
      (echoClient.DeleteRootFolderContext 0 = none → out.resp.Diagnostics = []) ∧
      (echoClient.DeleteRootFolderContext 0 ≠ none →
        out.resp.State = { Raw := some sampleFolderPlan } ∧
        ∃ detail, out.resp.Diagnostics = [] ++ [NewErrorDiagnostic tools.ClientError detail])) ∧
    (∃ out, NotificationMailgunResource.Delete failingClient
          { State := { Raw := some samplePlan } }
          { State := { Raw := some samplePlan }, Diagnostics := [] } = some out ∧
      out.calls = [ClientCall.DeleteNotification 0] ∧
      (out.resp.State.Raw = none ↔ failingClient.DeleteNotificationContext 0 = none) ∧
      (failingClient.DeleteNotificationContext 0 = none → out.resp.Diagnostics = []) ∧
      (failingClient.DeleteNotificationContext 0 ≠ none →
        out.resp.State = { Raw := some samplePlan } ∧
        ∃ detail, out.resp.Diagnostics = [] ++ [NewErrorDiagnostic tools.ClientError detail])) :=
  ⟨(Delete_removes_iff_remote_succeeded echoClient sampleFolderPlan samplePlan
      { State := { Raw := some sampleFolderPlan }, Diagnostics := [] }
      { State := { Raw := some samplePlan }, Diagnostics := [] } rfl rfl
      (by simp) (by simp)).1,
    (Delete_removes_iff_remote_succeeded failingClient sampleFolderPlan samplePlan
      { State := { Raw := some sampleFolderPlan }, Diagnostics := [] }
      { State := { Raw := some samplePlan }, Diagnostics := [] } rfl rfl
      (by simp) (by simp)).2⟩

/-- C15: the two Delete handlers do not name their own operation.  When the remote delete
call fails with the error `boom`, the detail of the client-error diagnostic of
`root_folder` and of `notification_mailgun` is `Unable to read ..., got error: boom`: it
names the read operation, not delete. -/
theorem Delete_error_detail_names_read :
    RootFolderResource.Delete failingClient { State := { Raw := some sampleFolderPlan } }
        { State := { Raw := some sampleFolderPlan }, Diagnostics := [] } =
      some { resp := { State := { Raw := some sampleFolderPlan },
                       Diagnostics := [NewErrorDiagnostic tools.ClientError
                         "Unable to read root_folder, got error: boom"] },
             calls := [ClientCall.DeleteRootFolder 0] } ∧
    NotificationMailgunResource.Delete failingClient { State := { Raw := some samplePlan } }
        { State := { Raw := some samplePlan }, Diagnostics := [] } =
      some { resp := { State := { Raw := some samplePlan },
                       Diagnostics := [NewErrorDiagnostic tools.ClientError
                         "Unable to read notification_mailgun, got error: boom"] },
             calls := [ClientCall.DeleteNotification 0] } :=
  ⟨RootFolderResource.folder_Delete_error failingClient sampleFolderPlan
      { State := { Raw := some sampleFolderPlan }, Diagnostics := [] } "boom" rfl rfl,
    NotificationMailgunResource.mailgun_Delete_error failingClient samplePlan
      { State := { Raw := some samplePlan }, Diagnostics := [] } "boom" rfl rfl⟩

/-- C16: `root_folder` is immutable after creation.  For every request and response,
`RootFolderResource.Update` makes no remote call and returns the response exactly as it
received it (state and diagnostics); in the schema the attribute `path`, and no other,
carries the requires-replace plan modifier, so a change of path is handled by
replacement. -/
theorem RootFolderResource.Update_does_nothing (client : sonarr.Sonarr)
    (req : UpdateRequest RootFolder) (resp : UpdateResponse RootFolder) :
    RootFolderResource.Update client req resp = some { resp := resp, calls := [] } ∧
    (∃ a ∈ RootFolderResource.Schema, a.Name = "path" ∧ a.Required = true ∧
      PlanModifier.RequiresReplace ∈ a.PlanModifiers) ∧
    (∀ a ∈ RootFolderResource.Schema,
      PlanModifier.RequiresReplace ∈ a.PlanModifiers → a.Name = "path") :=
  ⟨rfl, by decide, by decide⟩

/-- C17: atomicity on client error.  For Create, Read and Update of `notification_mailgun`
and Create and Read of `root_folder`, when the remote call of the handler fails with error
`err`, the handler has made that one call and no other, the state of the response is as it
was, and the diagnostics are those it received followed by exactly one error diagnostic.
The response handed to the handler holds no error. -/
theorem handlers_atomic_on_client_error (F : NotificationFields) (client : sonarr.Sonarr)
    (plan notification : NotificationMailgun) (prior : State NotificationMailgun)
    (folderPlan folder : RootFolder) (err : String)
    (cresp : CreateResponse NotificationMailgun) (rresp : ReadResponse NotificationMailgun)
    (uresp : UpdateResponse NotificationMailgun) (fcresp : CreateResponse RootFolder)
    (frresp : ReadResponse RootFolder)
    (hc : Diagnostics.HasError cresp.Diagnostics = false)
    (hr : Diagnostics.HasError rresp.Diagnostics = false)
    (hu : Diagnostics.HasError uresp.Diagnostics = false)
    (hfc : Diagnostics.HasError fcresp.Diagnostics = false)
    (hfr : Diagnostics.HasError frresp.Diagnostics = false) :
    (client.AddNotificationContext (plan.read F) = Except.error err →
      NotificationMailgunResource.Create F client { Plan := { Raw := some plan } } cresp =
        some { resp := { State := cresp.State,
                         Diagnostics := cresp.Diagnostics ++ [NewErrorDiagnostic tools.ClientError
                           ("Unable to create notification_mailgun, got error: " ++ err)] },
               calls := [ClientCall.AddNotification (plan.read F)] }) ∧
    (client.GetNotificationContext (toInt notification.ID.ValueInt64) = Except.error err →
      NotificationMailgunResource.Read F client { State := { Raw := some notification } }
          rresp =
        some { resp := { State := rresp.State,
                         Diagnostics := rresp.Diagnostics ++ [NewErrorDiagnostic tools.ClientError
                           ("Unable to read notification_mailgun, got error: " ++ err)] },
               calls := [ClientCall.GetNotification (toInt notification.ID.ValueInt64)] }) ∧
    (client.UpdateNotificationContext (plan.read F) = Except.error err →
      NotificationMailgunResource.Update F client
          { Plan := { Raw := some plan }, State := prior } uresp =
        some { resp := { State := uresp.State,
                         Diagnostics := uresp.Diagnostics ++ [NewErrorDiagnostic tools.ClientError
                           ("Unable to update notification_mailgun, got error: " ++ err)] },
               calls := [ClientCall.UpdateNotification (plan.read F)] }) ∧
    (client.AddRootFolderContext
        { Path := folderPlan.Path.ValueString, Accessible := false, ID := 0, FreeSpace := 0,
          UnmappedFolders := [] } = Except.error err →
      RootFolderResource.Create client { Plan := { Raw := some folderPlan } } fcresp =
        some { resp := { State := fcresp.State,
                         Diagnostics := fcresp.Diagnostics ++ [NewErrorDiagnostic tools.ClientError
                           ("Unable to create root_folder, got error: " ++ err)] },
               calls := [ClientCall.AddRootFolder
                 { Path := folderPlan.Path.ValueString, Accessible := false, ID := 0,
                   FreeSpace := 0, UnmappedFolders := [] }] }) ∧
    (client.GetRootFolderContext folder.ID.ValueInt64 = Except.error err →
      RootFolderResource.Read client { State := { Raw := some folder } } frresp =
        some { resp := { State := frresp.State,
                         Diagnostics := frresp.Diagnostics ++ [NewErrorDiagnostic tools.ClientError
                           ("Unable to read root_folder, got error: " ++ err)] },
               calls := [ClientCall.GetRootFolder folder.ID.ValueInt64] }) :=
  ⟨NotificationMailgunResource.mailgun_Create_error F client plan cresp err hc,
    NotificationMailgunResource.mailgun_Read_error F client notification rresp err hr,
    NotificationMailgunResource.mailgun_Update_error F client plan prior uresp err hu,
    RootFolderResource.folder_Create_error client folderPlan fcresp err hfc,
    RootFolderResource.folder_Read_error client folder frresp err hfr⟩

theorem handlers_atomic_on_client_error_witness :
    NotificationMailgunResource.Create sampleFields failingClient
        { Plan := { Raw := some samplePlan } } { State := { Raw := none }, Diagnostics := [] } =
      some { resp := { State := { Raw := none },
                       Diagnostics := [] ++ [NewErrorDiagnostic tools.ClientError
                         ("Unable to create notification_mailgun, got error: " ++ "boom")] },
             calls := [ClientCall.AddNotification (samplePlan.read sampleFields)] } ∧
    RootFolderResource.Read failingClient { State := { Raw := some sampleFolderPlan } }
        { State := { Raw := some sampleFolderPlan }, Diagnostics := [] } =
      some { resp := { State := { Raw := some sampleFolderPlan },
                       Diagnostics := [] ++ [NewErrorDiagnostic tools.ClientError
                         ("Unable to read root_folder, got error: " ++ "boom")] },
             calls := [ClientCall.GetRootFolder sampleFolderPlan.ID.ValueInt64] } :=
  ⟨(handlers_atomic_on_client_error sampleFields failingClient samplePlan samplePlan
      { Raw := none } sampleFolderPlan sampleFolderPlan "boom"
      { State := { Raw := none }, Diagnostics := [] }
      { State := { Raw := some samplePlan }, Diagnostics := [] }
      { State := { Raw := some samplePlan }, Diagnostics := [] }
      { State := { Raw := none }, Diagnostics := [] }
      { State := { Raw := some sampleFolderPlan }, Diagnostics := [] }
      rfl rfl rfl rfl rfl).1 rfl,
    (handlers_atomic_on_client_error sampleFields failingClient samplePlan samplePlan
      { Raw := none } sampleFolderPlan sampleFolderPlan "boom"
      { State := { Raw := none }, Diagnostics := [] }
      { State := { Raw := some samplePlan }, Diagnostics := [] }
      { State := { Raw := some samplePlan }, Diagnostics := [] }
      { State := { Raw := none }, Diagnostics := [] }
      { State := { Raw := some sampleFolderPlan }, Diagnostics := [] }
      rfl rfl rfl rfl rfl).2.2.2.2 rfl⟩

/-! ## The exclusion lookup as a search for the first match -/

theorem findImportListExclusion_eq_find (q : Int)
    (xs : List (Option ImportListExclusionResource)) :
    findImportListExclusion q xs =
      match xs.find? (matchesExclusion q) with
      | some t => (t, none)
      | none =>
        (none, some (ErrDataNotFoundError "import_list_exclusion" "tvdb_id" (Itoa (toInt q)))) := by
  induction xs with
  | nil => rfl
  | cons t rest ih =>
    unfold findImportListExclusion
    by_cases hm : ImportListExclusionResource.GetTvdbId t = toInt32 q
    · simp [hm, matchesExclusion]
    · simp only [hm, if_false, ih]
      simp [List.find?, matchesExclusion, hm]

theorem findImportListExclusion_no_match (q : Int)
    (xs : List (Option ImportListExclusionResource))
    (h : ∀ t ∈ xs, ImportListExclusionResource.GetTvdbId t ≠ toInt32 q) :
    findImportListExclusion q xs =
      (none, some (ErrDataNotFoundError "import_list_exclusion" "tvdb_id" (Itoa (toInt q)))) := by
  rw [findImportListExclusion_eq_find]
  have hnone : xs.find? (matchesExclusion q) = none := by
    rw [List.find?_eq_none]
    intro t ht
    simpa [matchesExclusion] using h t ht
  rw [hnone]

theorem findImportListExclusion_some_match (q : Int)
    (xs : List (Option ImportListExclusionResource))
    (h : ∃ t ∈ xs, ImportListExclusionResource.GetTvdbId t = toInt32 q) :
    (findImportListExclusion q xs).2 = none := by
  rw [findImportListExclusion_eq_find]
  cases hf : xs.find? (matchesExclusion q) with
  | some t => rfl
  | none =>
    rw [List.find?_eq_none] at hf
    obtain ⟨t, ht, hm⟩ := h
    exact absurd (by simpa [matchesExclusion] using hm) (hf t ht)

theorem toInt32_inInt32 (q : Int) : InInt32 (toInt32 q) := by
  unfold InInt32 toInt32 wrapSigned
  norm_num
  omega

theorem toInt32_congruent (q : Int) : (toInt32 q - q) % 4294967296 = 0 := by
  unfold toInt32 wrapSigned
  norm_num
  omega

theorem toInt32_add_multiple (q k : Int) : toInt32 (q + k * 4294967296) = toInt32 q := by
  unfold toInt32 wrapSigned
  norm_num
  omega

/-! ## The claims on the data sources -/

/-- Read of the `import_list_exclusion` data source, when the listing call succeeds, in terms
of the comparison that the lookup makes.  If no element has the TVDB ID that the lookup
compares with (the configured value converted to `int32`), Read leaves the state as it was
and adds exactly one diagnostic, the data-source error whose detail is
`Unable to find import_list_exclusion, got error: ` followed by the not-found error.  If
one has it, Read writes to state the model written from the record that
`findImportListExclusion` returned and adds no diagnostic.  The response handed to Read
holds no error. -/
theorem ImportListExclusionDataSource.Read_after_listing (write : ImportListExclusionWriter)
    (client : sonarr.APIClient) (config : ImportListExclusion)
    (resp : DataSourceReadResponse ImportListExclusion)
    (xs : List (Option ImportListExclusionResource))
    (hl : client.ListImportListExclusion = Except.ok xs)
    (hresp : Diagnostics.HasError resp.Diagnostics = false) :
    ((∀ t ∈ xs, ImportListExclusionResource.GetTvdbId t ≠ toInt32 config.TVDBID.ValueInt64) →
      ImportListExclusionDataSource.Read write client { Config := { Raw := some config } }
          resp =
        some { resp := { State := resp.State,
                         Diagnostics := resp.Diagnostics ++
                           [NewErrorDiagnostic helpers.DataSourceError
                             ("Unable to find import_list_exclusion, got error: " ++
                               (ErrDataNotFoundError "import_list_exclusion" "tvdb_id"
                                 (Itoa (toInt config.TVDBID.ValueInt64))).Error)] },
               calls := [ClientCall.ListImportListExclusion] }) ∧
    ((∃ t ∈ xs, ImportListExclusionResource.GetTvdbId t = toInt32 config.TVDBID.ValueInt64) →
      ImportListExclusionDataSource.Read write client { Config := { Raw := some config } }
          resp =
        some { resp := { State := { Raw := some (write config
                           (findImportListExclusion config.TVDBID.ValueInt64 xs).1) },
                         Diagnostics := resp.Diagnostics },
               calls := [ClientCall.ListImportListExclusion] }) := by
  constructor
  · intro hno
    have hfind := findImportListExclusion_no_match _ xs hno
    simp [ImportListExclusionDataSource.Read, Config.Get, Diagnostics.Append, hresp, hl, hfind,
      Diagnostics.AddError_no_error _ _ _ hresp, importListExclusionDataSourceName]
  · intro hsome
    have hnone := findImportListExclusion_some_match _ xs hsome
    have hpair : findImportListExclusion config.TVDBID.ValueInt64 xs =
        ((findImportListExclusion config.TVDBID.ValueInt64 xs).1, none) := by
      rw [← hnone]
    simp only [ImportListExclusionDataSource.Read, Config.Get, Diagnostics.Append, hresp, hl]
    rw [hpair]
    simp [State.Set, Diagnostics.Append, Storable.storable]

theorem ImportListExclusionDataSource.Read_after_listing_witness :
    ImportListExclusionDataSource.Read sampleExclusionWriter sampleAPIClient
        { Config := { Raw := some { Title := Attr.Null, TVDBID := Attr.Value 10,
                                    ID := Attr.Null } } }
        { State := { Raw := none }, Diagnostics := [] } =
      some { resp := { State := { Raw := none },
                       Diagnostics := [] ++
                         [NewErrorDiagnostic helpers.DataSourceError
                           ("Unable to find import_list_exclusion, got error: " ++
                             (ErrDataNotFoundError "import_list_exclusion" "tvdb_id"
                               (Itoa (toInt 10))).Error)] },
             calls := [ClientCall.ListImportListExclusion] } ∧
    ImportListExclusionDataSource.Read sampleExclusionWriter sampleAPIClient
        { Config := { Raw := some { Title := Attr.Null, TVDBID := Attr.Value 9,
                                    ID := Attr.Null } } }
        { State := { Raw := none }, Diagnostics := [] } =
      some { resp := { State := { Raw := some { Title := Attr.Value "first",
                                                TVDBID := Attr.Value 9, ID := Attr.Value 2 } },
                       Diagnostics := [] },
             calls := [ClientCall.ListImportListExclusion] } :=
  ⟨(ImportListExclusionDataSource.Read_after_listing sampleExclusionWriter sampleAPIClient
      { Title := Attr.Null, TVDBID := Attr.Value 10, ID := Attr.Null }
      { State := { Raw := none }, Diagnostics := [] } sampleExclusions rfl rfl).1 (by decide),
    (ImportListExclusionDataSource.Read_after_listing sampleExclusionWriter sampleAPIClient
      { Title := Attr.Null, TVDBID := Attr.Value 9, ID := Attr.Null }
      { State := { Raw := none }, Diagnostics := [] } sampleExclusions rfl rfl).2
      ⟨some { Id := some 2, TvdbId := some 9, Title := some "first" }, by decide, by decide⟩⟩

/-- C18: Read of the `import_list_exclusion` data source writes state for a configured
`tvdb_id` that no exclusion has.  With `tvdb_id = 4294967301` (`2 ^ 32 + 5`) and a listing
that succeeds with one exclusion, of TVDB ID 5, no exclusion matches the configured value,
yet Read adds no diagnostic and writes to state the model written from that exclusion: the
lookup compares with `int32(tvdb_id)`, which is 5. -/
theorem ImportListExclusionDataSource.Read_wrapped_id_writes_state :
    InInt64 4294967301 ∧
    (∀ t ∈ wrappedListing, ImportListExclusionResource.GetTvdbId t ≠ 4294967301) ∧
    ImportListExclusionDataSource.Read sampleExclusionWriter wrappedAPIClient
        { Config := { Raw := some { Title := Attr.Null, TVDBID := Attr.Value 4294967301,
                                    ID := Attr.Null } } }
        { State := { Raw := none }, Diagnostics := [] } =
      some { resp := { State := { Raw := some { Title := Attr.Value "excluded",
                                                TVDBID := Attr.Value 5, ID := Attr.Value 1 } },
                       Diagnostics := [] },
             calls := [ClientCall.ListImportListExclusion] } :=
  ⟨by decide, by decide,
    (ImportListExclusionDataSource.Read_after_listing sampleExclusionWriter wrappedAPIClient
      { Title := Attr.Null, TVDBID := Attr.Value 4294967301, ID := Attr.Null }
      { State := { Raw := none }, Diagnostics := [] } wrappedListing rfl rfl).2
      ⟨some { Id := some 1, TvdbId := some 5, Title := some "excluded" }, by decide,
        by decide⟩⟩

/-- What Read of the `import_list` data source does when the listing succeeds and no list
has the configured name: it adds the not-found error and then sets the state to the
configured model all the same. -/
theorem ImportListDataSource.Read_not_found (write : ImportListWriter)
    (client : sonarr.APIClient) (data : ImportList) (resp : DataSourceReadResponse ImportList)
    (lists : List ImportListResource) (hl : client.ListImportList = Except.ok lists)
    (hresp : Diagnostics.HasError resp.Diagnostics = false)
    (hno : ∀ l ∈ lists, l.GetName ≠ data.Name.ValueString)
    (hstore : Storable.storable data = true) :
    ImportListDataSource.Read write client { Config := { Raw := some data } } resp =
      some { resp := { State := { Raw := some data },
                       Diagnostics := resp.Diagnostics ++
                         [NewErrorDiagnostic helpers.DataSourceError
                           (helpers.ParseNotFoundError "import_list" "name"
                             data.Name.ValueString)] },
             calls := [ClientCall.ListImportList] } := by
  have hfind := ImportList.find_reports_missing_name write data data.Name.ValueString lists
    resp.Diagnostics hno
    (Diagnostics.not_mem_of_no_error _ _ _ hresp)
  simp [ImportListDataSource.Read, Config.Get, Diagnostics.Append, hresp, hl, hfind, State.Set,
    hstore]

/-- C19: Read of the `import_list` data source reports the not-found error and writes the
state as well.  With a listing that succeeds and holds no list named `movies`, the response
carries the not-found diagnostic and its state is set to the configured model. -/
theorem ImportListDataSource.Read_not_found_writes_state :
    (∀ l ∈ sampleImportLists, l.GetName ≠ "movies") ∧
    ImportListDataSource.Read sampleWriter sampleAPIClient
        { Config := { Raw := some { ImportList.allNull with Name := Attr.Value "movies" } } }
        { State := { Raw := none }, Diagnostics := [] } =
      some { resp := { State := { Raw := some { ImportList.allNull with
                                                Name := Attr.Value "movies" } },
                       Diagnostics := [NewErrorDiagnostic helpers.DataSourceError
                         (helpers.ParseNotFoundError "import_list" "name" "movies")] },
             calls := [ClientCall.ListImportList] } :=
  ⟨by decide,
    ImportListDataSource.Read_not_found sampleWriter sampleAPIClient
      { ImportList.allNull with Name := Attr.Value "movies" }
      { State := { Raw := none }, Diagnostics := [] } sampleImportLists rfl rfl (by decide)
      rfl⟩

/-- C20: exact characterisation of the exclusion lookup.  For every query `q` and collection,
`findImportListExclusion` returns the first element whose TVDB ID equals `int32(q)`, and the
not-found error (with no record) when there is none; `int32(q)` is the `int32` value
congruent to `q` modulo `2 ^ 32`; hence two queries that differ by a multiple of `2 ^ 32`
get the same record from the same collection. -/
theorem findImportListExclusion_characterisation (q : Int)
    (xs : List (Option ImportListExclusionResource)) :
    (findImportListExclusion q xs =
      match xs.find? (fun t => decide (ImportListExclusionResource.GetTvdbId t = toInt32 q)) with
      | some t => (t, none)
      | none =>
        (none, some (ErrDataNotFoundError "import_list_exclusion" "tvdb_id"
          (Itoa (toInt q))))) ∧
    InInt32 (toInt32 q) ∧ (toInt32 q - q) % 4294967296 = 0 ∧
    ∀ k : Int,
      (findImportListExclusion (q + k * 4294967296) xs).1 = (findImportListExclusion q xs).1 ∧
      ((findImportListExclusion (q + k * 4294967296) xs).2 = none ↔
        (findImportListExclusion q xs).2 = none) := by
  refine ⟨findImportListExclusion_eq_find q xs, toInt32_inInt32 q, toInt32_congruent q, ?_⟩
  intro k
  have hm : matchesExclusion (q + k * 4294967296) = matchesExclusion q := by
    funext t
    simp [matchesExclusion, toInt32_add_multiple]
  rw [findImportListExclusion_eq_find (q + k * 4294967296) xs,
    findImportListExclusion_eq_find q xs, hm]
  cases xs.find? (matchesExclusion q) with
  | some t => exact ⟨rfl, Iff.rfl⟩
  | none => exact ⟨rfl, by simp⟩

/-! ## `strconv.Atoi` on numeric identifiers -/

theorem parseUintDigits_overflow (cs : List Char) (n : Nat)
    (hd : ∀ c ∈ cs, isDigit c = true) (hn : n < 18446744073709551616)
    (hge : 18446744073709551616 ≤ cs.foldl (fun acc c => acc * 10 + digitVal c) n) :
    parseUintDigits cs n = Except.error NumError.ErrRange := by
  induction cs generalizing n with
  | nil =>
    simp only [List.foldl_nil] at hge
    omega
  | cons c cs ih =>
    have hc : isDigit c = true := hd c (List.mem_cons_self _ _)
    have hrest : ∀ d ∈ cs, isDigit d = true := fun d hmem => hd d (List.mem_cons_of_mem _ hmem)
    simp only [List.foldl_cons] at hge
    by_cases hstep : n * 10 + digitVal c < 18446744073709551616
    · simp only [parseUintDigits, hc, hstep, if_true]
      exact ih (n * 10 + digitVal c) hrest hstep hge
    · simp [parseUintDigits, hc, hstep]

/-- `ParseUint` on a non-empty digit string: its value when below `2 ^ 64`, a range error
otherwise. -/
theorem ParseUint_of_digits (cs : List Char) (hd : IsDecimalDigits cs) :
    ParseUint cs =
      if decimalValue cs < 18446744073709551616 then Except.ok (decimalValue cs)
      else Except.error NumError.ErrRange := by
  obtain ⟨hne, hall⟩ := hd
  cases cs with
  | nil => exact absurd rfl hne
  | cons c cs =>
    unfold ParseUint
    by_cases hlt : decimalValue (c :: cs) < 18446744073709551616
    · simp only [hlt, if_true]
      exact parseUintDigits_of_digits (c :: cs) 0 hall hlt
    · simp only [hlt, if_false]
      exact parseUintDigits_overflow (c :: cs) 0 hall (by norm_num)
        (by unfold decimalValue at hlt; omega)

/-- `Atoi` on a numeric identifier: the signed value when it fits a signed 64-bit integer, a
range error otherwise. -/
theorem Atoi_of_numeric (s : String) (h : IsNumeric s) :
    Atoi s =
      if InInt64 (signedValue s) then Except.ok (signedValue s)
      else Except.error NumError.ErrRange := by
  unfold IsNumeric at h
  unfold Atoi ParseInt signedValue
  cases hs : s.data with
  | nil => simp [hs] at h
  | cons c cs =>
    simp only [hs] at h ⊢
    by_cases hminus : c = '-'
    · subst hminus
      simp only [show ('-' = '+' ∨ '-' = '-') from Or.inr rfl, if_true] at h
      rw [show (if ('-' = '+' ∨ '-' = '-') then cs else '-' :: cs) = cs from by simp]
      rw [ParseUint_of_digits cs h]
      by_cases hlt : decimalValue cs < 18446744073709551616
      · by_cases hfit : decimalValue cs ≤ 9223372036854775808
        · have hin : InInt64 (-(decimalValue cs : Int)) := by
            unfold InInt64
            constructor <;> omega
          have hnot : ¬ (9223372036854775808 < decimalValue cs) := by omega
          simp [hlt, hnot, hin, toInt_of_inInt64 _ hin]
        · have hin : ¬ InInt64 (-(decimalValue cs : Int)) := by
            unfold InInt64
            omega
          have hgt : 9223372036854775808 < decimalValue cs := by omega
          simp [hlt, hgt, hin]
      · have hin : ¬ InInt64 (-(decimalValue cs : Int)) := by
          unfold InInt64
          omega
        simp [hlt, hin]
    · by_cases hplus : c = '+'
      · subst hplus
        simp only [show ('+' = '+' ∨ '+' = '-') from Or.inl rfl, if_true] at h
        rw [show (if ('+' = '+' ∨ '+' = '-') then cs else '+' :: cs) = cs from by simp]
        rw [ParseUint_of_digits cs h]
        by_cases hlt : decimalValue cs < 18446744073709551616
        · by_cases hfit : decimalValue cs < 9223372036854775808
          · have hin : InInt64 (decimalValue cs : Int) := by
              unfold InInt64
              constructor <;> omega
            have hnot : ¬ (9223372036854775808 ≤ decimalValue cs) := by omega
            simp [hlt, hnot, hin, toInt_of_inInt64 _ hin]
          · have hin : ¬ InInt64 (decimalValue cs : Int) := by
              unfold InInt64
              omega
            have hge : 9223372036854775808 ≤ decimalValue cs := by omega
            simp [hlt, hge, hin]
        · have hin : ¬ InInt64 (decimalValue cs : Int) := by
            unfold InInt64
            omega
          simp [hlt, hin]
      · have hsign : ¬ (c = '+' ∨ c = '-') := fun hor => hor.elim hplus hminus
        simp only [hsign, if_false] at h
        rw [show (if (c = '+' ∨ c = '-') then cs else c :: cs) = c :: cs from by simp [hsign]]
        rw [ParseUint_of_digits (c :: cs) h]
        by_cases hlt : decimalValue (c :: cs) < 18446744073709551616
        · by_cases hfit : decimalValue (c :: cs) < 9223372036854775808
          · have hin : InInt64 (decimalValue (c :: cs) : Int) := by
              unfold InInt64
              constructor <;> omega
            have hnot : ¬ (9223372036854775808 ≤ decimalValue (c :: cs)) := by omega
            simp [hlt, hnot, hin, hminus, hplus, toInt_of_inInt64 _ hin]
          · have hin : ¬ InInt64 (decimalValue (c :: cs) : Int) := by
              unfold InInt64
              omega
            have hge : 9223372036854775808 ≤ decimalValue (c :: cs) := by omega
            simp [hlt, hge, hin, hminus, hplus]
        · have hin : ¬ InInt64 (decimalValue (c :: cs) : Int) := by
            unfold InInt64
            omega
          simp [hlt, hin, hminus, hplus]

theorem Atoi_of_signed_decimal (s : String) (h : IsSignedDecimalInt64 s) :
    Atoi s = Except.ok (signedValue s) := by
  rw [Atoi_of_numeric s h.1]
  simp [h.2]

theorem Atoi_error_of_not_signed_decimal (s : String) (h : ¬ IsSignedDecimalInt64 s) :
    ∃ e, Atoi s = Except.error e := by
  by_cases hn : IsNumeric s
  · have hin : ¬ InInt64 (signedValue s) := fun hin => h ⟨hn, hin⟩
    exact ⟨NumError.ErrRange, by rw [Atoi_of_numeric s hn]; simp [hin]⟩
  · exact Atoi_error_of_not_numeric s hn

/-! ## The claim on the identifiers that import accepts -/

/-- C21: `ImportState` of `root_folder` and of `notification_mailgun` succeeds exactly when
the identifier is an optional single sign (`+` or `-`) followed by one or more decimal
digits whose signed value fits a signed 64-bit integer.  For such an identifier the
diagnostics are left as they were and the attribute `id` is set to the signed value, a
negative one included; for every other identifier (digits out of range, spaces or other
characters, the empty string) the state is left as it was and the error diagnostic for an
unexpected import identifier is added, to a response that does not hold it already. -/
theorem ImportState_succeeds_iff_signed_decimal (table : Char → Bool) (id : String)
    (rf : ImportStateResponse RootFolder) (mg : ImportStateResponse NotificationMailgun) :
    (IsSignedDecimalInt64 id →
      RootFolderResource.ImportState table { ID := id } rf =
        { Diagnostics := rf.Diagnostics,
          State := { Raw := some { rf.State.Raw.getD Model.null with
                                   ID := Attr.Value (signedValue id) } } } ∧
      NotificationMailgunResource.ImportState table { ID := id } mg =
        { Diagnostics := mg.Diagnostics,
          State := { Raw := some { mg.State.Raw.getD Model.null with
                                   ID := Attr.Value (signedValue id) } } }) ∧
    (¬ IsSignedDecimalInt64 id →
      NewErrorDiagnostic tools.UnexpectedImportIdentifier
        ("Expected import identifier with format: ID. Got: " ++ Quote table id) ∉
          rf.Diagnostics →
      NewErrorDiagnostic tools.UnexpectedImportIdentifier
        ("Expected import identifier with format: ID. Got: " ++ Quote table id) ∉
          mg.Diagnostics →
      RootFolderResource.ImportState table { ID := id } rf =
        { Diagnostics := rf.Diagnostics ++ [NewErrorDiagnostic tools.UnexpectedImportIdentifier
            ("Expected import identifier with format: ID. Got: " ++ Quote table id)],
          State := rf.State } ∧
      NotificationMailgunResource.ImportState table { ID := id } mg =
        { Diagnostics := mg.Diagnostics ++ [NewErrorDiagnostic tools.UnexpectedImportIdentifier
            ("Expected import identifier with format: ID. Got: " ++ Quote table id)],
          State := mg.State }) := by
  constructor
  · intro hacc
    have ha := Atoi_of_signed_decimal id hacc
    constructor
    · simp [RootFolderResource.ImportState, ha, State.SetAttribute, Model.setInt64, path.Root,
        Diagnostics.Append]
    · simp [NotificationMailgunResource.ImportState, ha, State.SetAttribute, Model.setInt64,
        path.Root, Diagnostics.Append]
  · intro hrej hrf hmg
    obtain ⟨e, he⟩ := Atoi_error_of_not_signed_decimal id hrej
    constructor
    · simp only [RootFolderResource.ImportState, he]
      rw [Diagnostics.AddError_fresh _ _ _ hrf]
    · simp only [NotificationMailgunResource.ImportState, he]
      rw [Diagnostics.AddError_fresh _ _ _ hmg]

theorem ImportState_succeeds_iff_signed_decimal_witness :
    IsSignedDecimalInt64 "-7" ∧ signedValue "-7" = -7 ∧
    IsSignedDecimalInt64 "+7" ∧ signedValue "+7" = 7 ∧
    IsSignedDecimalInt64 "-9223372036854775808" ∧
    ¬ IsSignedDecimalInt64 "9223372036854775808" ∧
    ¬ IsSignedDecimalInt64 "4 2" ∧ ¬ IsSignedDecimalInt64 "--7" ∧ ¬ IsSignedDecimalInt64 "" ∧
    RootFolderResource.ImportState sampleTable { ID := "-7" }
        { Diagnostics := [], State := { Raw := none } } =
      { Diagnostics := [],
        State := { Raw := some { UnmappedFolders := TfSet.Null, Path := Attr.Null,
                                 ID := Attr.Value (-7), Accessible := Attr.Null } } } ∧
    (NotificationMailgunResource.ImportState sampleTable { ID := "+7" }
        { Diagnostics := [], State := { Raw := none } }).State.Raw =
      some { (Model.null : NotificationMailgun) with ID := Attr.Value 7 } ∧
    RootFolderResource.ImportState sampleTable { ID := "9223372036854775808" }
        { Diagnostics := [], State := { Raw := none } } =
      { Diagnostics := [NewErrorDiagnostic tools.UnexpectedImportIdentifier
          ("Expected import identifier with format: ID. Got: " ++
            Quote sampleTable "9223372036854775808")],
        State := { Raw := none } } ∧
    NotificationMailgunResource.ImportState sampleTable { ID := "4 2" }
        { Diagnostics := [], State := { Raw := none } } =
      { Diagnostics := [NewErrorDiagnostic tools.UnexpectedImportIdentifier
          ("Expected import identifier with format: ID. Got: " ++ Quote sampleTable "4 2")],
        State := { Raw := none } } :=
  ⟨by decide, by decide, by decide, by decide, by decide, by decide, by decide, by decide,
    by decide,
    ((ImportState_succeeds_iff_signed_decimal sampleTable "-7"
      { Diagnostics := [], State := { Raw := none } }
      { Diagnostics := [], State := { Raw := none } }).1 (by decide)).1,
    congrArg (fun r => r.State.Raw)
      ((ImportState_succeeds_iff_signed_decimal sampleTable "+7"
        { Diagnostics := [], State := { Raw := none } }
        { Diagnostics := [], State := { Raw := none } }).1 (by decide)).2,
    ((ImportState_succeeds_iff_signed_decimal sampleTable "9223372036854775808"
      { Diagnostics := [], State := { Raw := none } }
      { Diagnostics := [], State := { Raw := none } }).2 (by decide) (by simp) (by simp)).1,
    ((ImportState_succeeds_iff_signed_decimal sampleTable "4 2"
      { Diagnostics := [], State := { Raw := none } }
      { Diagnostics := [], State := { Raw := none } }).2 (by decide) (by simp) (by simp)).2⟩

end Sonarr
